import Mathlib

/-!
Verification development for the left-ventricle 17-segment generator
(`platipy/imaging/utils/ventricle.py`).

The development shallowly embeds the code of `generate_left_ventricle_segments`
and its helper `extract`:

* voxel grids are finite lists of positive voxel coordinates in numpy
  `(z, y, x)` order; coordinate arithmetic is exact (`ℤ`, `ℚ`);
* floating point angle arithmetic is embedded as exact real arithmetic,
  with `np.arctan2` modelled by a piecewise definition `arctan2` with the
  numpy range `(-π, π]`;
* code of the repository that is not part of the provided sources
  (`get_com`, `label_to_roi`, `crop_to_roi`, `vector_angle`) is modelled
  from the specification and marked as such in its doc comment;
* genuinely external SimpleITK primitives (resampling, principal axes)
  are parameters of the embedding where their values matter.
-/

open Real

set_option maxRecDepth 4000

/-- Python `int(a / b)` for integers `a` and `b`: true division followed
by `int()` is exact truncation toward zero of the quotient. -/

def pyIntDiv (a b : ℤ) : ℤ := Int.tdiv a b

/-- Voxel coordinate in numpy array order `(z, y, x)`. -/

abbrev Vox3 : Type := ℤ × ℤ × ℤ

/-- In-slice voxel coordinate in numpy array order `(y, x)`. -/

abbrev Vox2 : Type := ℤ × ℤ

/-- Minimum of a list of reals, mirroring `np.min` (junk value on `[]`,
where numpy raises). -/

noncomputable def listMinR : List ℝ → ℝ
  | [] => 0
  | x :: xs => xs.foldl min x

/-- Insert a real into a sorted list of reals (ascending). -/

noncomputable def insortR (x : ℝ) : List ℝ → List ℝ
  | [] => [x]
  | y :: ys => if x ≤ y then x :: y :: ys else y :: insortR x ys

/-- Insertion sort on reals (ascending), used to model `np.median`. -/

noncomputable def sortR : List ℝ → List ℝ
  | [] => []
  | x :: xs => insortR x (sortR xs)

/-- Model of `np.median` for odd-length input (the code always passes a
list of 5 per-slice minima): the middle element of the sorted list. -/

noncomputable def npMedianOdd (l : List ℝ) : ℝ := (sortR l).getD (l.length / 2) 0

/-- Model of `np.arctan2 y x`: the angle of the point `(x, y)` in
`(-π, π]`, with numpy conventions `arctan2 0 0 = 0` and
`arctan2 0 x = π` for `x < 0`. -/

noncomputable def arctan2 (y x : ℝ) : ℝ :=
  if 0 < x then Real.arctan (y / x)
  else if x < 0 then
    (if 0 ≤ y then Real.arctan (y / x) + π else Real.arctan (y / x) - π)
  else
    (if 0 < y then π / 2 else if y < 0 then -(π / 2) else 0)

/-- The normalisation step `theta[theta < 0] += 2 * np.pi` applied to a
single value: one addition of `2π` for negative inputs. -/

noncomputable def norm2pi (t : ℝ) : ℝ := if t < 0 then t + 2 * π else t

namespace Ventricle

/-- Componentwise addition of voxel offsets. -/

def vadd (a b : Vox3) : Vox3 := (a.1 + b.1, a.2.1 + b.2.1, a.2.2 + b.2.2)

/-- Offsets of the default SimpleITK ball (ellipsoid) structuring element
with the given per-axis radii `(rz, ry, rx)`: the integer offsets inside
the ellipsoid with those semi-axes. -/

def ballOffsets (r : Vox3) : List Vox3 :=
  (List.range (2 * r.1.toNat + 1)).flatMap fun iz =>
    (List.range (2 * r.2.1.toNat + 1)).flatMap fun iy =>
      (List.range (2 * r.2.2.toNat + 1)).filterMap fun ix =>
        let dz : ℤ := (iz : ℤ) - r.1
        let dy : ℤ := (iy : ℤ) - r.2.1
        let dx : ℤ := (ix : ℤ) - r.2.2
        if dz ^ 2 * (r.2.1 ^ 2 * r.2.2 ^ 2) + dy ^ 2 * (r.1 ^ 2 * r.2.2 ^ 2) +
            dx ^ 2 * (r.1 ^ 2 * r.2.1 ^ 2) ≤ r.1 ^ 2 * (r.2.1 ^ 2 * r.2.2 ^ 2)
        then some (dz, dy, dx) else none

/-- Model of `sitk.BinaryErode` on the positive-voxel list of a binary
mask (background outside the support; the pipeline pads the crop by
30-60 mm so masks stay away from the array border). -/

def erode3 (r : Vox3) (img : List Vox3) : List Vox3 :=
  img.filter fun v => (ballOffsets r).all fun d => decide (vadd v d ∈ img)

/-- Model of `sitk.BinaryDilate` on the positive-voxel list. -/

def dilate3 (r : Vox3) (img : List Vox3) : List Vox3 :=
  (img.flatMap fun v => (ballOffsets r).map (vadd v)).dedup

/-- Pixelwise subtraction `a - b` of binary masks with `b ⊆ a`
(line 225: `working_contours[label_left_ventricle] - label_lv_inner`). -/

def imDiff (a b : List Vox3) : List Vox3 := a.filter fun v => decide (v ∉ b)

/-- Model of `sitk.Mask`: keep the voxels of `a` where `m` is positive
(line 230). -/

def imMask (a m : List Vox3) : List Vox3 := a.filter fun v => decide (v ∈ m)

/-- Positive `(y, x)` positions of an axial slice, as produced by
`np.where` on `img[:, :, z]` (numpy array order `(z, y, x)`). -/

def sliceAt (img : List Vox3) (z : ℤ) : List Vox2 :=
  img.filterMap fun v => if v.1 = z then some v.2 else none

/-- Least axial index of a nonempty voxel list: the `zstart` field of
`LabelShapeStatisticsImageFilter.GetRegion(1)` (line 237), i.e. the start
of the bounding box along the long axis (junk 0 on the empty list, where
the filter has no region 1). -/

def minZ (img : List Vox3) : ℤ :=
  match img.map (fun v => v.1) with
  | [] => 0
  | a :: as => as.foldl min a

/-- Exact mean of a list of integers. -/

def meanQ (l : List ℤ) : ℚ := (l.sum : ℚ) / l.length

/-- Modelled from the spec: `get_com` (platipy.imaging.label.utils, not
under src/) on a 3D mask, first (axial) component. The spec defines the
centroid as the mean position of positive voxels; the integer conversion
reflects the value's use as a Python `range` bound (`basal_extent`,
line 247/395). -/

def getComZ (img : List Vox3) : ℤ := pyIntDiv (img.map fun v => v.1).sum img.length

/-- Modelled from the spec: `get_com` on a 2D slice, components in numpy
axis order `(y, x)`; mean position of positive voxels, as integers. -/

def getCom2 (sl : List Vox2) : ℤ × ℤ :=
  (pyIntDiv (sl.map fun p => p.1).sum sl.length,
   pyIntDiv (sl.map fun p => p.2).sum sl.length)

/-- Python `range(a, b)` over integers. -/

def intRange (a b : ℤ) : List ℤ := (List.range (b - a).toNat).map fun i => a + (i : ℤ)

/-- The aligned, cropped working masks consumed by Modules 3 and 4 of
`generate_left_ventricle_segments` (the output state of Modules 1-2),
together with the voxel erosion radii `erode_img` computed at line 100. -/

structure Ctx where
  lv : List Vox3
  rv : List Vox3
  mv : List Vox3
  erodeR : Vox3

/-- Line 224: `label_lv_inner = sitk.BinaryErode(working_contours[lv], erode_img)`. -/

def lvInner (C : Ctx) : List Vox3 := erode3 C.erodeR C.lv

/-- Lines 225-230: myocardium = LV minus eroded LV, masked to the
dilation of the eroded blood pool. -/

def lvMyo (C : Ctx) : List Vox3 :=
  imMask (imDiff C.lv (lvInner C)) (dilate3 C.erodeR (lvInner C))

/-- Line 237: inferior limit of the eroded LV region along the long axis. -/

def infLimit (C : Ctx) : ℤ := minZ (lvInner C)

/-- Line 239: axial coordinate of the mitral-valve centroid. -/

def comMvZ (C : Ctx) : ℤ := getComZ C.mv

/-- Lines 241-242: `extent = com_mv - inf_limit_lv; dc = int(extent / 3)`
(Python `int` of a true division: truncation toward zero). -/

def dcThird (C : Ctx) : ℤ := pyIntDiv (comMvZ C - infLimit C) 3

/-- Line 245: `apical_extent = inf_limit_lv + dc`. -/

def apicalExtent (C : Ctx) : ℤ := infLimit C + dcThird C

/-- Line 246: `mid_extent = inf_limit_lv + 2 * dc`. -/

def midExtent (C : Ctx) : ℤ := infLimit C + 2 * dcThird C

/-- Line 247: `basal_extent = com_mv`. -/

def basalExtent (C : Ctx) : ℤ := comMvZ C

/-- Lines 291-301: the normalised polar angles of the right-ventricle
voxels of slice `z` about that slice's LV centroid,
`arctan2(lv_com_y - rv_y, rv_x - lv_com_x)` with `2π` added to negative
values. -/

noncomputable def thetaRvList (C : Ctx) (z : ℤ) : List ℝ :=
  (sliceAt C.rv z).map fun p =>
    norm2pi (arctan2 (((getCom2 (sliceAt C.lv z)).1 : ℝ) - (p.1 : ℝ))
      ((p.2 : ℝ) - ((getCom2 (sliceAt C.lv z)).2 : ℝ)))

/-- Line 302: the per-slice minimum angle (the RV insertion point). -/

noncomputable def thetaRvMin (C : Ctx) (z : ℤ) : ℝ := listMinR (thetaRvList C z)

/-- Lines 286-304: `theta_0` is the median of the minima over the five
slices `mid_extent, ..., mid_extent + 4`. -/

noncomputable def theta0 (C : Ctx) : ℝ :=
  npMedianOdd ((List.range 5).map fun i => thetaRvMin C (midExtent C + (i : ℤ)))

/-- Lines 307-318: `theta_0_apical` from the slice-averaged LV and RV
centroids over the apical slice range. -/

def apicalZs (C : Ctx) : List ℤ := intRange (infLimit C) (apicalExtent C)

/-- Component-wise `np.mean(list, axis=0)` of the per-slice integer
centroids (a float mean, no integer conversion). -/

def comMean (coms : List (ℤ × ℤ)) : ℚ × ℚ :=
  (meanQ (coms.map fun p => p.1), meanQ (coms.map fun p => p.2))

noncomputable def theta0Apical (C : Ctx) : ℝ :=
  arctan2
    (((comMean ((apicalZs C).map fun z => getCom2 (sliceAt C.lv z))).1 -
      (comMean ((apicalZs C).map fun z => getCom2 (sliceAt C.rv z))).1 : ℚ) : ℝ)
    (((comMean ((apicalZs C).map fun z => getCom2 (sliceAt C.rv z))).2 -
      (comMean ((apicalZs C).map fun z => getCom2 (sliceAt C.lv z))).2 : ℚ) : ℝ)

/-- Lines 339-341 / 370-372 / 407-409: relative polar angle of a voxel
about its slice's myocardium centroid,
`theta = -arctan2(loc_y - y_0, loc_x - x_0) - reference`, then the
normalisation step. -/

noncomputable def thetaAt (C : Ctx) (ref : ℝ) (v : Vox3) : ℝ :=
  norm2pi (-(arctan2
      ((v.2.1 - (getCom2 (sliceAt (lvMyo C) v.1)).1 : ℤ) : ℝ)
      ((v.2.2 - (getCom2 (sliceAt (lvMyo C) v.1)).2 : ℤ) : ℝ)) - ref)

/-- An angular window as passed to `extract` (lines 344-429):
`angle_min`, `angle_max` and the `cw` flag. -/

structure Window where
  amin : ℝ
  amax : ℝ
  cw : Bool

/-- Lines 38-41 of `extract`: the voxel-selection condition.
With `cw`: `(angles <= angle_min) | (angles >= angle_max)`;
otherwise: `(angles <= angle_max) & (angles >= angle_min)`. -/

def inWindow (w : Window) (t : ℝ) : Prop :=
  if w.cw then t ≤ w.amin ∨ w.amax ≤ t else w.amin ≤ t ∧ t ≤ w.amax

/-- The angular window passed to `extract` for each segment id
(lines 344-355 apical, 375-392 mid, 412-429 basal; junk window for ids
outside 1-16). -/

noncomputable def windowOf : ℕ → Window
  | 1 => ⟨5 * π / 3, 2 * π, false⟩
  | 2 => ⟨0, π / 3, false⟩
  | 3 => ⟨π / 3, 2 * π / 3, false⟩
  | 4 => ⟨2 * π / 3, 3 * π / 3, false⟩
  | 5 => ⟨3 * π / 3, 4 * π / 3, false⟩
  | 6 => ⟨4 * π / 3, 5 * π / 3, false⟩
  | 7 => ⟨5 * π / 3, 2 * π, false⟩
  | 8 => ⟨0, π / 3, false⟩
  | 9 => ⟨1 * π / 3, 2 * π / 3, false⟩
  | 10 => ⟨2 * π / 3, 3 * π / 3, false⟩
  | 11 => ⟨3 * π / 3, 4 * π / 3, false⟩
  | 12 => ⟨4 * π / 3, 5 * π / 3, false⟩
  | 13 => ⟨5 * π / 4, 7 * π / 4, false⟩
  | 14 => ⟨1 * π / 4, 7 * π / 4, true⟩
  | 15 => ⟨1 * π / 4, 3 * π / 4, false⟩
  | 16 => ⟨3 * π / 4, 5 * π / 4, false⟩
  | _ => ⟨0, 0, false⟩

/-- The four axial bands plus a tag for ids outside 1-17. -/

inductive BandT : Type
  | apex : BandT
  | apical : BandT
  | mid : BandT
  | basal : BandT
  | outside : BandT
deriving DecidableEq

/-- Band of each segment id, per the loops of Module 4: 13-16 apical,
7-12 mid, 1-6 basal, 17 the apex cap. -/

def bandOfSeg (s : ℕ) : BandT :=
  if s = 17 then .apex
  else if 13 ≤ s ∧ s ≤ 16 then .apical
  else if 7 ≤ s ∧ s ≤ 12 then .mid
  else if 1 ≤ s ∧ s ≤ 6 then .basal
  else .outside

/-- Axial slice range of each band: the loop bounds
`range(inf_limit_lv, apical_extent)`, `range(apical_extent, mid_extent)`,
`range(mid_extent, basal_extent)` and the apex-cap slicing
`label_lv_myo_apex[:, :, inf_limit_lv:] = 0`. -/

def zInBand (C : Ctx) : BandT → ℤ → Prop
  | .apex, z => z < infLimit C
  | .apical, z => infLimit C ≤ z ∧ z < apicalExtent C
  | .mid, z => apicalExtent C ≤ z ∧ z < midExtent C
  | .basal, z => midExtent C ≤ z ∧ z < basalExtent C
  | .outside, _ => False

/-- Reference angle used by each band's loop: `theta_0_apical` for the
apical band, `theta_0` for mid and basal. -/

noncomputable def bandRef (C : Ctx) : BandT → ℝ
  | .apical => theta0Apical C
  | _ => theta0 C

/-- Voxel `v` is positive in the working volume of segment `s` before
Module 5 (inverse reprojection): segment 17 is the apex cap of the
myocardium; segments 1-16 are written slice-by-slice by the band loops
through `extract`, and are zero outside their band's slice range. -/

def segPos (C : Ctx) (s : ℕ) (v : Vox3) : Prop :=
  (bandOfSeg s = .apex ∧ v ∈ lvMyo C ∧ v.1 < infLimit C) ∨
  ((bandOfSeg s = .apical ∨ bandOfSeg s = .mid ∨ bandOfSeg s = .basal) ∧
    zInBand C (bandOfSeg s) v.1 ∧ v.2 ∈ sliceAt (lvMyo C) v.1 ∧
    inWindow (windowOf s) (thetaAt C (bandRef C (bandOfSeg s)) v))

/-- A plus-sign shaped slice of radius 2, used as the LV cross-section of
the concrete scenarios. -/

def crossSlice : List Vox2 :=
  [(0, 0), (0, 1), (0, -1), (0, 2), (0, -2), (1, 0), (-1, 0), (2, 0), (-2, 0)]

/-- A tubular LV mask: the cross-shaped slice on axial slices 0-11. -/

def lvTube : List Vox3 :=
  (List.range 12).flatMap fun z => crossSlice.map fun p => ((z : ℤ), p)

/-- RV mask of scenario A: one voxel per relevant slice, directly at
negative `y` from the LV centre (normalised insertion angle `π/2`). -/

def rvA : List Vox3 :=
  [(1, -5, 0), (2, -5, 0), (3, -5, 0), (7, -5, 0), (8, -5, 0), (9, -5, 0),
   (10, -5, 0), (11, -5, 0)]

/-- RV mask of scenario B: one voxel per relevant slice, directly at
positive `y` from the LV centre (normalised insertion angle `3π/2`). -/

def rvB : List Vox3 :=
  [(1, 5, 0), (2, 5, 0), (3, 5, 0), (7, 5, 0), (8, 5, 0), (9, 5, 0),
   (10, 5, 0), (11, 5, 0)]

/-- Mitral-valve mask: a single voxel on slice 10, off to the side. -/

def mvT : List Vox3 := [(10, 0, 6)]

/-- Scenario A: erosion radii `(1,1,1)` (e.g. 10 mm thickness at 10 mm
spacing). -/

def ctxA : Ctx := ⟨lvTube, rvA, mvT, (1, 1, 1)⟩

/-- Scenario B: as scenario A but with the RV on the other side. -/

def ctxB : Ctx := ⟨lvTube, rvB, mvT, (1, 1, 1)⟩

/-- Segment ids written by the mid-band loop, in source order
(lines 375-392). -/

def midIds : List ℕ := [8, 9, 10, 11, 12, 7]

/-- Segment ids written by the basal-band loop, in source order
(lines 412-429). -/

def basalIds : List ℕ := [2, 3, 4, 5, 6, 1]

/-- Segment ids written by the apical-band loop, in source order
(lines 344-355). -/

def apicalIds : List ℕ := [13, 14, 15, 16]

/-- The shared endpoints of the mid/basal angular windows. -/

def midBoundary (t : ℝ) : Prop :=
  t = π / 3 ∨ t = 2 * π / 3 ∨ t = π ∨ t = 4 * π / 3 ∨ t = 5 * π / 3

/-- The shared endpoints of the apical angular windows. -/

def apicalBoundary (t : ℝ) : Prop :=
  t = π / 4 ∨ t = 3 * π / 4 ∨ t = 5 * π / 4 ∨ t = 7 * π / 4

/-- Mitral-valve mask of scenario C: a single voxel on slice 0, below the
inferior limit of the eroded LV. -/

def mvLow : List Vox3 := [(0, 0, 6)]

/-- Scenario C: as scenario A but with the mitral valve below the eroded
LV region, so `mv_coord - inf_limit` is negative. -/

def ctxC : Ctx := ⟨lvTube, rvA, mvLow, (1, 1, 1)⟩

/-- Spec-side definition for C7, following the claim's words: the
per-slice minimum, over the right-ventricle voxels of slice `z`, of the
polar angle about that slice's LV centroid, each angle normalised into
`[0, 2π)` by adding `2π` to negative values before the minimum is taken.
The angle convention is the code's image orientation:
`Δy = lv_com_y - rv_y` and `Δx = rv_x - lv_com_x`. -/

noncomputable def rvInsertionMinSpec (C : Ctx) (z : ℤ) : ℝ :=
  listMinR ((C.rv.filter fun v => decide (v.1 = z)).map fun v =>
    norm2pi (arctan2 (((getCom2 (sliceAt C.lv z)).1 : ℝ) - (v.2.1 : ℝ))
      ((v.2.2 : ℝ) - ((getCom2 (sliceAt C.lv z)).2 : ℝ))))

/-- Spec-side definition for C7: the median over exactly the five slices
starting at the mid/basal boundary of the per-slice minima. -/

noncomputable def theta0Spec (C : Ctx) : ℝ :=
  npMedianOdd [rvInsertionMinSpec C (midExtent C),
    rvInsertionMinSpec C (midExtent C + 1), rvInsertionMinSpec C (midExtent C + 2),
    rvInsertionMinSpec C (midExtent C + 3), rvInsertionMinSpec C (midExtent C + 4)]

end Ventricle

namespace Align

/-- Python `int()` of an exact rational: truncation toward zero. -/

def ratTrunc (q : ℚ) : ℤ := q.num.tdiv q.den

/-- A working image for the alignment stage: voxel spacing plus the
positive voxel list (geometry beyond spacing is abstracted). -/

structure Img where
  spacing : ℚ × ℚ × ℚ
  vox : List Vox3

/-- The Python exceptions the pipeline can raise, together with the
error kinds the spec names for the repository modules that are not under
src/ (modelled from the spec where so marked). -/

inductive Err : Type
  | keyError : String → Err
  | missingStructure : Err
  | emptyMask : Err
  | valueError : Err
deriving DecidableEq

/-- Python dict access `contours[label]`: the stored image or
`KeyError(label)`. -/

def lookupE (cs : List (String × Img)) (k : String) : Except Err Img :=
  match cs.find? fun p => decide (p.1 = k) with
  | some p => .ok p.2
  | none => .error (.keyError k)

/-- A rigid transform value: centre, rotation axis and angle, as set on
`sitk.VersorRigid3DTransform` (lines 139-141 and 193-195). -/

structure Rigid where
  centre : ℝ × ℝ × ℝ
  axis : ℝ × ℝ × ℝ
  angle : ℝ

/-- Triple reversal, modelling `cardiac_axis[::-1]` (lines 135-136). -/

def rev3 (a : ℝ × ℝ × ℝ) : ℝ × ℝ × ℝ := (a.2.2, a.2.1, a.1)

/-- Componentwise difference of physical points. -/

noncomputable def sub3 (a b : ℝ × ℝ × ℝ) : ℝ × ℝ × ℝ :=
  (a.1 - b.1, a.2.1 - b.2.1, a.2.2 - b.2.2)

/-- Midpoint `0.5 * (a + b)` of two physical points (line 189). -/

noncomputable def mid3 (a b : ℝ × ℝ × ℝ) : ℝ × ℝ × ℝ :=
  ((a.1 + b.1) / 2, (a.2.1 + b.2.1) / 2, (a.2.2 + b.2.2) / 2)

/-- Cross product `np.cross` of physical vectors (lines 136 and 187). -/

noncomputable def cross3 (a b : ℝ × ℝ × ℝ) : ℝ × ℝ × ℝ :=
  (a.2.1 * b.2.2 - a.2.2 * b.2.1, a.2.2 * b.1 - a.1 * b.2.2,
   a.1 * b.2.1 - a.2.1 * b.1)

/-- The external operations the alignment stage calls, as parameters of
the embedding: SimpleITK principal axes and resampling, physical
centroid and index-to-physical conversion values, and `vector_angle`
(platipy.imaging.utils.geometry, not under src/; spec 6 describes it as
the angle between two vectors). -/

structure Ext where
  principalAxes : Img → ℝ × ℝ × ℝ
  vangle : (ℝ × ℝ × ℝ) → (ℝ × ℝ × ℝ) → ℝ
  comPhys : Img → ℝ × ℝ × ℝ
  toPhys : Img → ℚ × ℚ × ℚ → ℝ × ℝ × ℝ
  resample : Rigid → Img → Img

/-- Modelled from the spec: `get_com(mask, real_coords=True)`
(platipy.imaging.label.utils, not under src/) fails with
`EmptyMaskError` when the mask has no positive voxels (spec 4.2 and 7);
otherwise its value is the external centroid. -/

def comPhysE (ext : Ext) (im : Img) : Except Err (ℝ × ℝ × ℝ) :=
  if im.vox.isEmpty then .error .emptyMask else .ok (ext.comPhys im)

/-- Componentwise minimum of the voxel coordinates of a list. -/

def bboxMin : List Vox3 → Vox3
  | [] => (0, 0, 0)
  | v :: vs => vs.foldl (fun a b => (min a.1 b.1, min a.2.1 b.2.1, min a.2.2 b.2.2)) v

/-- Componentwise maximum of the voxel coordinates of a list. -/

def bboxMax : List Vox3 → Vox3
  | [] => (0, 0, 0)
  | v :: vs => vs.foldl (fun a b => (max a.1 b.1, max a.2.1 b.2.1, max a.2.2 b.2.2)) v

/-- Margin in voxels per axis from a margin in millimetres. -/

def marginVox (margin : ℚ × ℚ × ℚ) (sp : ℚ × ℚ × ℚ) : Vox3 :=
  (ratTrunc (margin.1 / sp.1), ratTrunc (margin.2.1 / sp.2.1),
   ratTrunc (margin.2.2 / sp.2.2))

/-- Modelled from the spec: `label_to_roi` (platipy.imaging.utils.crop,
not under src/): the bounding box `(size, index)` of the positive region
expanded by the margin (spec 4.1), failing with `MissingStructureError`
when the mask has no positive voxels (undefined bounding box).
Components are in the voxel axis order of this embedding. -/

def labelToRoi (im : Img) (margin : ℚ × ℚ × ℚ) : Except Err (Vox3 × Vox3) :=
  match im.vox with
  | [] => .error .missingStructure
  | _ =>
      let e := marginVox margin im.spacing
      let lo := bboxMin im.vox
      let hi := bboxMax im.vox
      .ok ((hi.1 - lo.1 + 1 + 2 * e.1, hi.2.1 - lo.2.1 + 1 + 2 * e.2.1,
            hi.2.2 - lo.2.2 + 1 + 2 * e.2.2),
           (lo.1 - e.1, lo.2.1 - e.2.1, lo.2.2 - e.2.2))

/-- Modelled from the spec: `crop_to_roi` (platipy.imaging.utils.crop,
not under src/): crop a mask to the box, shifting indices to the box
origin. -/

def cropTo (box : Vox3 × Vox3) (im : Img) : Img :=
  ⟨im.spacing,
   (im.vox.filter fun v => decide (box.2.1 ≤ v.1 ∧ v.1 < box.2.1 + box.1.1 ∧
      box.2.2.1 ≤ v.2.1 ∧ v.2.1 < box.2.2.1 + box.1.2.1 ∧
      box.2.2.2 ≤ v.2.2 ∧ v.2.2 < box.2.2.2 + box.1.2.2)).map
     fun v => (v.1 - box.2.1, v.2.1 - box.2.2.1, v.2.2 - box.2.2.2)⟩

/-- Line 121-123: `label_orient = (lv + la) > 0`, the union of the two
masks. -/

def orientUnion (a b : Img) : Img :=
  ⟨a.spacing, a.vox ++ b.vox.filter fun v => decide (v ∉ a.vox)⟩

/-- Lines 129-133: flip the principal axis when its third component is
negative, so it points base to apex. -/

noncomputable def flipAxis (a : ℝ × ℝ × ℝ) : ℝ × ℝ × ℝ :=
  if a.2.2 < 0 then (-a.1, -a.2.1, -a.2.2) else a

/-- Line 135: the initial rotation angle
`vector_angle(cardiac_axis[::-1], (0, 0, 1))` for a given orientation
mask. -/

noncomputable def initialAngle (ext : Ext) (orient : Img) : ℝ :=
  ext.vangle (rev3 (flipAxis (ext.principalAxes orient))) (0, 0, 1)

/-- Lines 100-103: `erode_img`, the voxel radii from a thickness in
millimetres divided by the spacing (also `hole_fill_img`, line 104). -/

def eroVox (thk : ℚ) (sp : ℚ × ℚ × ℚ) : Vox3 :=
  (ratTrunc (thk / sp.1), ratTrunc (thk / sp.2.1), ratTrunc (thk / sp.2.2))

/-- Lines 145-152 and 208-215: resample every working mask under the new
transform. -/

def resampleAll (ext : Ext) (t : Rigid) (w : List (String × Img)) :
    List (String × Img) :=
  w.map fun p => (p.1, ext.resample t p.2)

/-- Line 160: `optimiser_tol_radians = optimiser_tol_degrees * np.pi / 180`. -/

noncomputable def tolRad (tolDeg : ℚ) : ℝ := (tolDeg : ℝ) * π / 180

/-- Module 1 and the initial alignment (lines 95-152): spacing
conversions (which perform the first dict accesses, lines 100-104), the
ROI crop (lines 112-118), the principal-axis rotation (lines 121-143)
and the first resample; returns the working masks, the initial rigid
transform and the initial rotation angle that seeds the refinement
loop's guard. -/

noncomputable def initialStage (ext : Ext) (cs : List (String × Img))
    (lblLV lblLA lblHeart : String) (myoThk holeFill : ℚ) :
    Except Err (List (String × Img) × Rigid × ℝ) := do
  let lvImg ← lookupE cs lblLV
  let _erodeImg := eroVox myoThk lvImg.spacing
  let heartImg ← lookupE cs lblHeart
  let _holeFillImg := eroVox holeFill heartImg.spacing
  let box ← labelToRoi heartImg (30, 30, 60)
  let working := cs.map fun p => (p.1, cropTo box p.2)
  let lvC ← lookupE working lblLV
  let laC ← lookupE working lblLA
  let orient := orientUnion lvC laC
  let rotCentre ← comPhysE ext orient
  let t0 : Rigid := ⟨rotCentre, cross3 (rev3 (flipAxis (ext.principalAxes orient))) (0, 0, 1),
    initialAngle ext orient⟩
  pure (resampleAll ext t0 working, t0, initialAngle ext orient)

/-- Module 2 (lines 162-215): the refinement loop, with the remaining
iteration budget as fuel. The guard mirrors
`while n < optimiser_max_iter and np.abs(rotation_angle) > tol`; the
body locates the LV apex (`np.where` plus `.min()`, which raises
`ValueError` on an empty LV), takes the mitral-valve centroid
(`EmptyMaskError` on an empty mask, modelled from the spec), builds the
next rigid transform, appends it and resamples every working mask. -/

noncomputable def refineLoop (ext : Ext) (lblLV lblMV : String) (tol : ℝ) :
    ℕ → ℝ → List (String × Img) → List Rigid →
    Except Err (List (String × Img) × List Rigid)
  | 0, _, w, acc => .ok (w, acc)
  | fuel + 1, angle, w, acc =>
      if |angle| ≤ tol then .ok (w, acc)
      else do
        let lv ← lookupE w lblLV
        match lv.vox with
        | [] => .error .valueError
        | _ :: _ => do
            let apexZ := Ventricle.minZ lv.vox
            let apexY := Ventricle.meanQ ((Ventricle.sliceAt lv.vox apexZ).map fun p => p.1)
            let apexX := Ventricle.meanQ ((Ventricle.sliceAt lv.vox apexZ).map fun p => p.2)
            let mvIm ← lookupE w lblMV
            let mvCom ← comPhysE ext mvIm
            let apexPhys := ext.toPhys lv (apexX, apexY, (apexZ : ℚ))
            let lvAxis := sub3 apexPhys mvCom
            let t : Rigid := ⟨mid3 mvCom apexPhys, cross3 lvAxis (0, 0, 1),
              ext.vangle lvAxis (0, 0, 1)⟩
            refineLoop ext lblLV lblMV tol fuel (ext.vangle lvAxis (0, 0, 1))
              (resampleAll ext t w) (acc ++ [t])

/-- Modules 1-2 of `generate_left_ventricle_segments`: the initial
alignment followed by the refinement loop seeded with the initial
rotation angle (line 164 reuses `rotation_angle` from line 135). -/

noncomputable def module12 (ext : Ext) (cs : List (String × Img))
    (lblLV lblLA lblMV lblHeart : String) (myoThk holeFill tolDeg : ℚ)
    (maxIter : ℕ) : Except Err (List (String × Img) × List Rigid) := do
  let r ← initialStage ext cs lblLV lblLA lblHeart myoThk holeFill
  refineLoop ext lblLV lblMV (tolRad tolDeg) maxIter r.2.2 r.1 [r.2.1]

/-- External operations for the concrete alignment scenarios: constant
principal axis `(0, 0, 1)`, zero angles and centroids, identity
resampling. -/

noncomputable def extW : Ext where
  principalAxes := fun _ => (0, 0, 1)
  vangle := fun _ _ => 0
  comPhys := fun _ => (0, 0, 0)
  toPhys := fun _ _ => (0, 0, 0)
  resample := fun _ im => im

/-- A one-voxel mask with unit spacing. -/

def imgU : Img := ⟨(1, 1, 1), [(0, 0, 0)]⟩

/-- An empty mask with unit spacing. -/

def imgE : Img := ⟨(1, 1, 1), []⟩

/-- An input mask set whose whole-heart mask is absent. -/

def csNoHeart : List (String × Img) :=
  [("LEFTVENTRICLE", imgU), ("LEFTATRIUM", imgU), ("RIGHTVENTRICLE", imgU),
   ("MITRALVALVE", imgU)]

/-- An input mask set whose whole-heart mask is present but empty. -/

def csEmptyHeart : List (String × Img) :=
  [("LEFTVENTRICLE", imgU), ("LEFTATRIUM", imgU), ("RIGHTVENTRICLE", imgU),
   ("MITRALVALVE", imgU), ("WHOLEHEART", imgE)]

/-- A working mask set with an empty left ventricle. -/

def wLvEmpty : List (String × Img) :=
  [("LEFTVENTRICLE", imgE), ("MITRALVALVE", imgU)]

/-- A working mask set with an empty mitral valve. -/

def wMvEmpty : List (String × Img) :=
  [("LEFTVENTRICLE", imgU), ("MITRALVALVE", imgE)]

end Align

namespace Alloc

/-- A heap of image objects: partial memory over addresses together with
the next fresh address. Models Python object identity for the
`SimpleITK.Image` values the pipeline handles. -/

structure Heap (V : Type) where
  mem : ℕ → Option V
  next : ℕ

/-- Allocate a fresh object (every SimpleITK operation returns a new
image). -/

def Heap.alloc {V : Type} (h : Heap V) (v : V) : ℕ × Heap V :=
  (h.next, ⟨fun a => if a = h.next then some v else h.mem a, h.next + 1⟩)

/-- Mutate the object at an address (slice assignment
`img[:, :, n] = x`). -/

def Heap.write {V : Type} (h : Heap V) (a : ℕ) (v : V) : Heap V :=
  ⟨fun b => if b = a then some v else h.mem b, h.next⟩

/-- The state monad over the heap. -/

def M (V : Type) (α : Type) : Type := Heap V → α × Heap V

def mpure {V α : Type} (x : α) : M V α := fun h => (x, h)

def mbind {V α β : Type} (m : M V α) (f : α → M V β) : M V β := fun h =>
  let r := m h
  f r.1 r.2

def readD {V : Type} (d : V) (a : ℕ) : M V V := fun h => ((h.mem a).getD d, h)

def allocM {V : Type} (v : V) : M V ℕ := fun h => h.alloc v

def writeM {V : Type} (a : ℕ) (v : V) : M V Unit := fun h => ((), h.write a v)

/-- Iterate a unit-valued body over a list. -/

def mfor {V α : Type} (l : List α) (body : α → M V Unit) : M V Unit :=
  match l with
  | [] => mpure ()
  | x :: xs => mbind (body x) fun _ => mfor xs body

/-- Map a monadic body over a list, collecting results. -/

def mmap {V α β : Type} (l : List α) (body : α → M V β) : M V (List β) :=
  match l with
  | [] => mpure []
  | x :: xs => mbind (body x) fun y => mbind (mmap xs body) fun ys => mpure (y :: ys)

/-- A program preserves the heap below `n0`: it never mutates an address
smaller than `n0` and never lowers the allocation pointer. -/

def Pres {V α : Type} (n0 : ℕ) (m : M V α) : Prop :=
  ∀ h : Heap V, n0 ≤ h.next →
    n0 ≤ (m h).2.next ∧ ∀ a, a < n0 → (m h).2.mem a = h.mem a

/-- Every address an allocation-shaped body returns is at least `n0`. -/

def RetFresh {V : Type} (n0 : ℕ) (m : M V ℕ) : Prop :=
  ∀ h : Heap V, n0 ≤ h.next → n0 ≤ (m h).1

instance {V : Type} : Monad (M V) where
  pure := mpure
  bind := mbind

/-- Preservation with a postcondition on the result: below-`n0` memory
is untouched, the allocation pointer does not decrease, and the result
satisfies `Q`. -/

def PresP {V α : Type} (n0 : ℕ) (m : M V α) (Q : α → Prop) : Prop :=
  ∀ h : Heap V, n0 ≤ h.next →
    n0 ≤ (m h).2.next ∧ (∀ a, a < n0 → (m h).2.mem a = h.mem a) ∧ Q ((m h).1)

/-- The content operations of the pipeline, abstracted over the image
value type `V`: every SimpleITK call allocates a new image whose content
is given by one of these pure functions, and only slice assignments
mutate. The loop guard, band slice ranges, hole-fill flag and iteration
budget are data of the run. -/

structure Ops (V : Type) where
  dflt : V
  addOp : V → V → V
  thresh : V → V
  crop : V → V
  resample : V → V
  erode : V → V
  subtract : V → V → V
  dilate : V → V
  maskOp : V → V → V
  copy1 : V → V
  zeroFrom : V → V
  zeroTo : V → V
  sliceOf : ℤ → V → V
  extractOp : V → V
  setSlice : ℤ → V → V → V
  zeroMul : V → V
  closing : V → V
  paste : V → V → V
  guard : ℕ → Bool
  zsApical : List ℤ
  zsMid : List ℤ
  zsBasal : List ℤ
  holeFill : Bool
  maxIter : ℕ

/-- The five input mask addresses. -/

structure CAddrs where
  lv : ℕ
  la : ℕ
  rv : ℕ
  mv : ℕ
  heart : ℕ

/-- Read an image and allocate a new one computed from it (the shape of
every unary SimpleITK call). -/

def alloc1 {V : Type} (d : V) (f : V → V) (src : ℕ) : M V ℕ :=
  mbind (readD d src) fun v => allocM (f v)

/-- Read two images and allocate a new one computed from them. -/

def alloc2 {V : Type} (d : V) (f : V → V → V) (src1 src2 : ℕ) : M V ℕ :=
  mbind (readD d src1) fun v1 => mbind (readD d src2) fun v2 => allocM (f v1 v2)

/-- Read an image and mutate a target address with a function of the
target's current content and the read value (slice assignment
`img[:, :, n] = x`). -/

def writeSlice {V : Type} (d : V) (f : ℤ → V → V → V) (z : ℤ) (tgt src : ℕ) :
    M V Unit :=
  mbind (readD d tgt) fun old => mbind (readD d src) fun x => writeM tgt (f z old x)

/-- Mutate a target address with a function of its current content
(the band-copy slice zeroing, lines 250-266). -/

def writeSelf {V : Type} (d : V) (f : V → V) (tgt : ℕ) : M V Unit :=
  mbind (readD d tgt) fun old => writeM tgt (f old)

/-- Lines 145-152 / 208-215: resample every working mask under the new
transform, rebinding the working dict to the five new images. -/

def resampleAllA {V : Type} (ops : Ops V) (w : CAddrs) : M V CAddrs :=
  mbind (alloc1 ops.dflt ops.resample w.lv) fun a =>
    mbind (alloc1 ops.dflt ops.resample w.la) fun b =>
      mbind (alloc1 ops.dflt ops.resample w.rv) fun c =>
        mbind (alloc1 ops.dflt ops.resample w.mv) fun d =>
          mbind (alloc1 ops.dflt ops.resample w.heart) fun e =>
            mpure ⟨a, b, c, d, e⟩

/-- Lines 162-215: the refinement loop's allocation behaviour; the guard
(iteration count and angle tolerance) is abstracted into `ops.guard`. -/

def refineAllocLoop {V : Type} (ops : Ops V) : ℕ → CAddrs → M V CAddrs
  | 0, w => mpure w
  | n + 1, w =>
      if ops.guard n then mbind (resampleAllA ops w) (refineAllocLoop ops n)
      else mpure w

/-- Lines 327-429: one band's per-slice assignment loop: slice the
myocardium, build each segment's slice mask with `extract` (a fresh
image) and assign it into the segment volume (a mutation of that
volume). -/

def bandLoop {V : Type} (ops : Ops V) (myo : ℕ) (segAddrs : List ℕ)
    (zs : List ℤ) : M V Unit :=
  mfor zs fun z =>
    mbind (alloc1 ops.dflt (ops.sliceOf z) myo) fun sl =>
      mfor segAddrs fun sa =>
        mbind (alloc1 ops.dflt ops.extractOp sl) fun ex =>
          writeSlice ops.dflt ops.setSlice z sa ex

/-- Lines 441-460: inverse-resample one segment, optionally close holes,
build `contours[label_heart] * 0` from the original input image, and
paste; the result is a freshly allocated output volume. -/

def reproject {V : Type} (ops : Ops V) (heartOrig : ℕ) (sa : ℕ) : M V ℕ :=
  mbind (alloc1 ops.dflt ops.resample sa) fun r1 =>
    mbind (if ops.holeFill then alloc1 ops.dflt ops.closing r1 else mpure r1) fun r2 =>
      mbind (alloc1 ops.dflt ops.zeroMul heartOrig) fun z0 =>
        alloc2 ops.dflt ops.paste z0 r2

/-- The allocation/mutation skeleton of `generate_left_ventricle_segments`
(lines 95-462): deep copy, crop, orientation mask, initial resample,
refinement loop, myocardium extraction, band copies with their slice
zeroing, the 17 zero-initialised segment volumes (17 rebound to the apex
copy at line 323), the three per-slice assignment loops, and the final
reprojection producing the output dict keyed 1-17. -/

def pipe {V : Type} (ops : Ops V) (cin : CAddrs) : M V (List (ℕ × ℕ)) :=
  mbind (alloc1 ops.dflt id cin.lv) fun _ =>
  mbind (alloc1 ops.dflt id cin.la) fun _ =>
  mbind (alloc1 ops.dflt id cin.rv) fun _ =>
  mbind (alloc1 ops.dflt id cin.mv) fun _ =>
  mbind (alloc1 ops.dflt id cin.heart) fun _ =>
  mbind (alloc1 ops.dflt ops.crop cin.lv) fun wLv =>
  mbind (alloc1 ops.dflt ops.crop cin.la) fun wLa =>
  mbind (alloc1 ops.dflt ops.crop cin.rv) fun wRv =>
  mbind (alloc1 ops.dflt ops.crop cin.mv) fun wMv =>
  mbind (alloc1 ops.dflt ops.crop cin.heart) fun wHeart =>
  mbind (alloc2 ops.dflt ops.addOp wLv wLa) fun sum =>
  mbind (alloc1 ops.dflt ops.thresh sum) fun _ =>
  mbind (resampleAllA ops ⟨wLv, wLa, wRv, wMv, wHeart⟩) fun w1 =>
  mbind (refineAllocLoop ops ops.maxIter w1) fun w2 =>
  mbind (alloc1 ops.dflt ops.erode w2.lv) fun inner =>
  mbind (alloc2 ops.dflt ops.subtract w2.lv inner) fun myoRaw =>
  mbind (alloc1 ops.dflt ops.dilate inner) fun dil =>
  mbind (alloc2 ops.dflt ops.maskOp myoRaw dil) fun myo =>
  mbind (alloc1 ops.dflt ops.copy1 myo) fun apex =>
  mbind (writeSelf ops.dflt ops.zeroFrom apex) fun _ =>
  mbind (alloc1 ops.dflt ops.copy1 myo) fun apicalC =>
  mbind (writeSelf ops.dflt ops.zeroTo apicalC) fun _ =>
  mbind (writeSelf ops.dflt ops.zeroFrom apicalC) fun _ =>
  mbind (alloc1 ops.dflt ops.copy1 myo) fun midC =>
  mbind (writeSelf ops.dflt ops.zeroTo midC) fun _ =>
  mbind (writeSelf ops.dflt ops.zeroFrom midC) fun _ =>
  mbind (alloc1 ops.dflt ops.copy1 myo) fun basalC =>
  mbind (writeSelf ops.dflt ops.zeroTo basalC) fun _ =>
  mbind (writeSelf ops.dflt ops.zeroFrom basalC) fun _ =>
  mbind (mmap (List.range 17) fun _ => alloc1 ops.dflt ops.zeroMul w2.heart) fun segs =>
  mbind (bandLoop ops myo ((segs.take 16).drop 12) ops.zsApical) fun _ =>
  mbind (bandLoop ops myo (((segs.take 16).drop 6).take 6) ops.zsMid) fun _ =>
  mbind (bandLoop ops myo ((segs.take 16).take 6) ops.zsBasal) fun _ =>
  mbind (mmap ((segs.take 16) ++ [apex]) (reproject ops cin.heart)) fun out =>
  mpure ((((List.range 17).map fun i => i + 1)).zip out)

/-- Trivial content operations over the unit image type, for the C9
witness run. -/

def opsU : Ops Unit where
  dflt := ()
  addOp := fun _ _ => ()
  thresh := fun _ => ()
  crop := fun _ => ()
  resample := fun _ => ()
  erode := fun _ => ()
  subtract := fun _ _ => ()
  dilate := fun _ => ()
  maskOp := fun _ _ => ()
  copy1 := fun _ => ()
  zeroFrom := fun _ => ()
  zeroTo := fun _ => ()
  sliceOf := fun _ _ => ()
  extractOp := fun _ => ()
  setSlice := fun _ _ _ => ()
  zeroMul := fun _ => ()
  closing := fun _ => ()
  paste := fun _ _ => ()
  guard := fun _ => true
  zsApical := [1, 2, 3]
  zsMid := [4, 5, 6]
  zsBasal := [7, 8, 9]
  holeFill := true
  maxIter := 2

/-- A heap holding the five input volumes at addresses 0-4. -/

def heap0 : Heap Unit := ⟨fun a => if a < 5 then some () else none, 5⟩

/-- The five input addresses of the witness run. -/

def cinW : CAddrs := ⟨0, 1, 2, 3, 4⟩

end Alloc

theorem arctan_nonpos_of_nonpos {t : ℝ} (h : t ≤ 0) : Real.arctan t ≤ 0 := by
  have := Real.arctan_strictMono.monotone h
  simpa using this

theorem arctan_pos_of_pos {t : ℝ} (h : 0 < t) : 0 < Real.arctan t := by
  have := Real.arctan_strictMono h
  simpa using this

theorem arctan2_le_pi (y x : ℝ) : arctan2 y x ≤ π := by
  have ha := Real.arctan_lt_pi_div_two (y / x)
  have hb := Real.neg_pi_div_two_lt_arctan (y / x)
  have hpi := Real.pi_pos
  unfold arctan2
  split_ifs with h1 h2 h3 h4 h5
  · linarith
  · have := arctan_nonpos_of_nonpos (div_nonpos_of_nonneg_of_nonpos h3 h2.le)
    linarith
  · linarith
  · linarith
  · linarith
  · linarith

theorem neg_pi_lt_arctan2 (y x : ℝ) : -π < arctan2 y x := by
  have ha := Real.arctan_lt_pi_div_two (y / x)
  have hb := Real.neg_pi_div_two_lt_arctan (y / x)
  have hpi := Real.pi_pos
  unfold arctan2
  split_ifs with h1 h2 h3 h4 h5
  · linarith
  · linarith
  · have hy : y < 0 := lt_of_not_le (fun h => h3 h)
    have := arctan_pos_of_pos (div_pos_of_neg_of_neg hy h2)
    linarith
  · linarith
  · linarith
  · linarith

theorem arctan2_pos_zero {y : ℝ} (hy : 0 < y) : arctan2 y 0 = π / 2 := by
  unfold arctan2
  rw [if_neg (lt_irrefl 0), if_neg (lt_irrefl 0), if_pos hy]

theorem arctan2_neg_zero {y : ℝ} (hy : y < 0) : arctan2 y 0 = -(π / 2) := by
  unfold arctan2
  rw [if_neg (lt_irrefl 0), if_neg (lt_irrefl 0), if_neg (not_lt.mpr hy.le), if_pos hy]

theorem arctan2_zero_neg {x : ℝ} (hx : x < 0) : arctan2 0 x = π := by
  unfold arctan2
  rw [if_neg (not_lt.mpr hx.le), if_pos hx, if_pos le_rfl, zero_div, Real.arctan_zero,
    zero_add]

theorem arctan2_zero_pos {x : ℝ} (hx : 0 < x) : arctan2 0 x = 0 := by
  unfold arctan2
  rw [if_pos hx, zero_div, Real.arctan_zero]

theorem arctan2_zero_zero : arctan2 0 0 = 0 := by
  unfold arctan2
  rw [if_neg (lt_irrefl 0), if_neg (lt_irrefl 0), if_neg (lt_irrefl 0),
    if_neg (lt_irrefl 0)]

theorem norm2pi_of_nonneg {t : ℝ} (h : 0 ≤ t) : norm2pi t = t := by
  unfold norm2pi; simp [not_lt.mpr h]

theorem norm2pi_of_neg {t : ℝ} (h : t < 0) : norm2pi t = t + 2 * π := by
  unfold norm2pi; simp [h]

namespace Ventricle

theorem lvInner_A :
    lvInner ctxA = [(1, 0, 0), (2, 0, 0), (3, 0, 0), (4, 0, 0), (5, 0, 0),
      (6, 0, 0), (7, 0, 0), (8, 0, 0), (9, 0, 0), (10, 0, 0)] := by decide

theorem infLimit_A : infLimit ctxA = 1 := by
  unfold infLimit
  rw [lvInner_A]
  decide

theorem dcThird_A : dcThird ctxA = 3 := by
  unfold dcThird comMvZ
  rw [infLimit_A]
  decide

theorem midExtent_A : midExtent ctxA = 7 := by
  unfold midExtent
  rw [infLimit_A, dcThird_A]
  decide

theorem apicalExtent_A : apicalExtent ctxA = 4 := by
  unfold apicalExtent
  rw [infLimit_A, dcThird_A]
  decide

theorem sliceMyo4_A : sliceAt (lvMyo ctxA) 4 = [(0, 1), (0, -1), (1, 0), (-1, 0)] := by
  decide

theorem npMedianOdd_five (a : ℝ) : npMedianOdd [a, a, a, a, a] = a := by
  simp [npMedianOdd, sortR, insortR, le_refl]

theorem thetaRvMin_singleton (C : Ctx) (z y x cy cx : ℤ)
    (hrv : sliceAt C.rv z = [(y, x)])
    (hlv : getCom2 (sliceAt C.lv z) = (cy, cx)) :
    thetaRvMin C z = norm2pi (arctan2 ((cy : ℝ) - (y : ℝ)) ((x : ℝ) - (cx : ℝ))) := by
  unfold thetaRvMin thetaRvList
  rw [hrv, hlv]
  simp [listMinR]

theorem thetaRvMin_A {z : ℤ} (hz : z ∈ ([7, 8, 9, 10, 11] : List ℤ)) :
    thetaRvMin ctxA z = π / 2 := by
  have hrv : sliceAt ctxA.rv z = [(-5, 0)] := by fin_cases hz <;> decide
  have hlv : getCom2 (sliceAt ctxA.lv z) = (0, 0) := by fin_cases hz <;> decide
  rw [thetaRvMin_singleton ctxA z (-5) 0 0 0 hrv hlv]
  norm_num
  rw [arctan2_pos_zero (by norm_num : (0 : ℝ) < 5)]
  rw [norm2pi_of_nonneg (by positivity)]

theorem theta0_A : theta0 ctxA = π / 2 := by
  unfold theta0
  rw [midExtent_A]
  rw [show List.range 5 = [0, 1, 2, 3, 4] from rfl]
  simp only [List.map]
  rw [thetaRvMin_A (by norm_num), thetaRvMin_A (by norm_num), thetaRvMin_A (by norm_num),
    thetaRvMin_A (by norm_num), thetaRvMin_A (by norm_num)]
  exact npMedianOdd_five _

theorem lvInner_B :
    lvInner ctxB = [(1, 0, 0), (2, 0, 0), (3, 0, 0), (4, 0, 0), (5, 0, 0),
      (6, 0, 0), (7, 0, 0), (8, 0, 0), (9, 0, 0), (10, 0, 0)] := by decide

theorem infLimit_B : infLimit ctxB = 1 := by
  unfold infLimit
  rw [lvInner_B]
  decide

theorem dcThird_B : dcThird ctxB = 3 := by
  unfold dcThird comMvZ
  rw [infLimit_B]
  decide

theorem midExtent_B : midExtent ctxB = 7 := by
  unfold midExtent
  rw [infLimit_B, dcThird_B]
  decide

theorem basalExtent_B : basalExtent ctxB = 10 := by decide

theorem sliceMyo7_B : sliceAt (lvMyo ctxB) 7 = [(0, 1), (0, -1), (1, 0), (-1, 0)] := by
  decide

theorem comMyo4_A : getCom2 (sliceAt (lvMyo ctxA) 4) = (0, 0) := by
  rw [sliceMyo4_A]
  decide

theorem comMyo7_B : getCom2 (sliceAt (lvMyo ctxB) 7) = (0, 0) := by
  rw [sliceMyo7_B]
  decide

theorem thetaRvMin_B {z : ℤ} (hz : z ∈ ([7, 8, 9, 10, 11] : List ℤ)) :
    thetaRvMin ctxB z = 3 * π / 2 := by
  have hrv : sliceAt ctxB.rv z = [(5, 0)] := by fin_cases hz <;> decide
  have hlv : getCom2 (sliceAt ctxB.lv z) = (0, 0) := by fin_cases hz <;> decide
  rw [thetaRvMin_singleton ctxB z 5 0 0 0 hrv hlv]
  norm_num
  rw [arctan2_neg_zero (by norm_num : (-5 : ℝ) < 0)]
  rw [norm2pi_of_neg (by linarith [Real.pi_pos])]
  ring

theorem theta0_B : theta0 ctxB = 3 * π / 2 := by
  unfold theta0
  rw [midExtent_B]
  rw [show List.range 5 = [0, 1, 2, 3, 4] from rfl]
  simp only [List.map]
  rw [thetaRvMin_B (by norm_num), thetaRvMin_B (by norm_num), thetaRvMin_B (by norm_num),
    thetaRvMin_B (by norm_num), thetaRvMin_B (by norm_num)]
  exact npMedianOdd_five _

theorem thetaAt_eval (C : Ctx) (ref : ℝ) (v : Vox3) (cy cx : ℤ)
    (h : getCom2 (sliceAt (lvMyo C) v.1) = (cy, cx)) :
    thetaAt C ref v =
      norm2pi (-(arctan2 ((v.2.1 - cy : ℤ) : ℝ) ((v.2.2 - cx : ℤ) : ℝ)) - ref) := by
  unfold thetaAt
  rw [h]

theorem thetaAt_A_mid : thetaAt ctxA (theta0 ctxA) (4, 1, 0) = π := by
  rw [theta0_A, thetaAt_eval ctxA _ _ 0 0 comMyo4_A]
  norm_num
  rw [arctan2_pos_zero one_pos]
  rw [show -(π / 2) - π / 2 = -π by ring]
  rw [norm2pi_of_neg (by linarith [Real.pi_pos])]
  ring

theorem thetaAt_B_basal : thetaAt ctxB (theta0 ctxB) (7, 0, -1) = -(π / 2) := by
  rw [theta0_B, thetaAt_eval ctxB _ _ 0 0 comMyo7_B]
  norm_num
  rw [arctan2_zero_neg (by norm_num : (-1 : ℝ) < 0)]
  rw [norm2pi_of_neg (by linarith [Real.pi_pos])]
  ring

theorem inWindow_ncw (a b t : ℝ) : inWindow ⟨a, b, false⟩ t ↔ a ≤ t ∧ t ≤ b := by
  simp [inWindow]

theorem inWindow_cw (a b t : ℝ) : inWindow ⟨a, b, true⟩ t ↔ t ≤ a ∨ b ≤ t := by
  simp [inWindow]

theorem windowOfEq1 : windowOf 1 = ⟨5 * π / 3, 2 * π, false⟩ := rfl

theorem windowOfEq2 : windowOf 2 = ⟨0, π / 3, false⟩ := rfl

theorem windowOfEq3 : windowOf 3 = ⟨π / 3, 2 * π / 3, false⟩ := rfl

theorem windowOfEq4 : windowOf 4 = ⟨2 * π / 3, 3 * π / 3, false⟩ := rfl

theorem windowOfEq5 : windowOf 5 = ⟨3 * π / 3, 4 * π / 3, false⟩ := rfl

theorem windowOfEq6 : windowOf 6 = ⟨4 * π / 3, 5 * π / 3, false⟩ := rfl

theorem windowOfEq7 : windowOf 7 = ⟨5 * π / 3, 2 * π, false⟩ := rfl

theorem windowOfEq8 : windowOf 8 = ⟨0, π / 3, false⟩ := rfl

theorem windowOfEq9 : windowOf 9 = ⟨1 * π / 3, 2 * π / 3, false⟩ := rfl

theorem windowOfEq10 : windowOf 10 = ⟨2 * π / 3, 3 * π / 3, false⟩ := rfl

theorem windowOfEq11 : windowOf 11 = ⟨3 * π / 3, 4 * π / 3, false⟩ := rfl

theorem windowOfEq12 : windowOf 12 = ⟨4 * π / 3, 5 * π / 3, false⟩ := rfl

theorem windowOfEq13 : windowOf 13 = ⟨5 * π / 4, 7 * π / 4, false⟩ := rfl

theorem windowOfEq14 : windowOf 14 = ⟨1 * π / 4, 7 * π / 4, true⟩ := rfl

theorem windowOfEq15 : windowOf 15 = ⟨1 * π / 4, 3 * π / 4, false⟩ := rfl

theorem windowOfEq16 : windowOf 16 = ⟨3 * π / 4, 5 * π / 4, false⟩ := rfl

theorem mid_cover {t : ℝ} (h0 : 0 ≤ t) (h2 : t ≤ 2 * π) :
    ∃ s ∈ midIds, inWindow (windowOf s) t := by
  have hpi := Real.pi_pos
  rcases le_or_lt t (π / 3) with h | h
  · exact ⟨8, by simp [midIds], by rw [windowOfEq8, inWindow_ncw]; exact ⟨h0, h⟩⟩
  rcases le_or_lt t (2 * π / 3) with h' | h'
  · exact ⟨9, by simp [midIds], by rw [windowOfEq9, inWindow_ncw]; constructor <;> linarith⟩
  rcases le_or_lt t (3 * π / 3) with h'' | h''
  · exact ⟨10, by simp [midIds], by rw [windowOfEq10, inWindow_ncw]; constructor <;> linarith⟩
  rcases le_or_lt t (4 * π / 3) with h3 | h3
  · exact ⟨11, by simp [midIds], by rw [windowOfEq11, inWindow_ncw]; constructor <;> linarith⟩
  rcases le_or_lt t (5 * π / 3) with h4 | h4
  · exact ⟨12, by simp [midIds], by rw [windowOfEq12, inWindow_ncw]; constructor <;> linarith⟩
  · exact ⟨7, by simp [midIds], by rw [windowOfEq7, inWindow_ncw]; constructor <;> linarith⟩

theorem basal_cover {t : ℝ} (h0 : 0 ≤ t) (h2 : t ≤ 2 * π) :
    ∃ s ∈ basalIds, inWindow (windowOf s) t := by
  have hpi := Real.pi_pos
  rcases le_or_lt t (π / 3) with h | h
  · exact ⟨2, by simp [basalIds], by rw [windowOfEq2, inWindow_ncw]; exact ⟨h0, h⟩⟩
  rcases le_or_lt t (2 * π / 3) with h' | h'
  · exact ⟨3, by simp [basalIds], by rw [windowOfEq3, inWindow_ncw]; constructor <;> linarith⟩
  rcases le_or_lt t (3 * π / 3) with h'' | h''
  · exact ⟨4, by simp [basalIds], by rw [windowOfEq4, inWindow_ncw]; constructor <;> linarith⟩
  rcases le_or_lt t (4 * π / 3) with h3 | h3
  · exact ⟨5, by simp [basalIds], by rw [windowOfEq5, inWindow_ncw]; constructor <;> linarith⟩
  rcases le_or_lt t (5 * π / 3) with h4 | h4
  · exact ⟨6, by simp [basalIds], by rw [windowOfEq6, inWindow_ncw]; constructor <;> linarith⟩
  · exact ⟨1, by simp [basalIds], by rw [windowOfEq1, inWindow_ncw]; constructor <;> linarith⟩

theorem apical_cover (t : ℝ) : ∃ s ∈ apicalIds, inWindow (windowOf s) t := by
  have hpi := Real.pi_pos
  rcases le_or_lt t (1 * π / 4) with h | h
  · exact ⟨14, by simp [apicalIds], by rw [windowOfEq14, inWindow_cw]; exact Or.inl h⟩
  rcases le_or_lt t (3 * π / 4) with h' | h'
  · exact ⟨15, by simp [apicalIds], by rw [windowOfEq15, inWindow_ncw]; constructor <;> linarith⟩
  rcases le_or_lt t (5 * π / 4) with h'' | h''
  · exact ⟨16, by simp [apicalIds], by rw [windowOfEq16, inWindow_ncw]; constructor <;> linarith⟩
  rcases le_or_lt t (7 * π / 4) with h3 | h3
  · exact ⟨13, by simp [apicalIds], by rw [windowOfEq13, inWindow_ncw]; constructor <;> linarith⟩
  · exact ⟨14, by simp [apicalIds], by rw [windowOfEq14, inWindow_cw]; exact Or.inr h3.le⟩

theorem mid_windows_unique {t : ℝ} {s s' : ℕ} (hs : s ∈ midIds) (hs' : s' ∈ midIds)
    (hne : s ≠ s') (h1 : inWindow (windowOf s) t) (h2 : inWindow (windowOf s') t) :
    midBoundary t := by
  have hpi := Real.pi_pos
  simp only [midIds, List.mem_cons, List.not_mem_nil, or_false] at hs hs'
  rcases hs with rfl | rfl | rfl | rfl | rfl | rfl <;>
    rcases hs' with rfl | rfl | rfl | rfl | rfl | rfl <;>
      simp only [windowOfEq7, windowOfEq8, windowOfEq9, windowOfEq10, windowOfEq11,
        windowOfEq12, inWindow_ncw] at h1 h2 <;>
      first
      | exact absurd rfl hne
      | (obtain ⟨a1, b1⟩ := h1
         obtain ⟨a2, b2⟩ := h2
         unfold midBoundary
         first
         | (exfalso; linarith)
         | (left; linarith)
         | (right; left; linarith)
         | (right; right; left; linarith)
         | (right; right; right; left; linarith)
         | (right; right; right; right; linarith))

theorem basal_windows_unique {t : ℝ} {s s' : ℕ} (hs : s ∈ basalIds) (hs' : s' ∈ basalIds)
    (hne : s ≠ s') (h1 : inWindow (windowOf s) t) (h2 : inWindow (windowOf s') t) :
    midBoundary t := by
  have hpi := Real.pi_pos
  simp only [basalIds, List.mem_cons, List.not_mem_nil, or_false] at hs hs'
  rcases hs with rfl | rfl | rfl | rfl | rfl | rfl <;>
    rcases hs' with rfl | rfl | rfl | rfl | rfl | rfl <;>
      simp only [windowOfEq1, windowOfEq2, windowOfEq3, windowOfEq4, windowOfEq5,
        windowOfEq6, inWindow_ncw] at h1 h2 <;>
      first
      | exact absurd rfl hne
      | (obtain ⟨a1, b1⟩ := h1
         obtain ⟨a2, b2⟩ := h2
         unfold midBoundary
         first
         | (exfalso; linarith)
         | (left; linarith)
         | (right; left; linarith)
         | (right; right; left; linarith)
         | (right; right; right; left; linarith)
         | (right; right; right; right; linarith))

theorem apical_windows_unique {t : ℝ} {s s' : ℕ} (hs : s ∈ apicalIds) (hs' : s' ∈ apicalIds)
    (hne : s ≠ s') (h1 : inWindow (windowOf s) t) (h2 : inWindow (windowOf s') t) :
    apicalBoundary t := by
  have hpi := Real.pi_pos
  simp only [apicalIds, List.mem_cons, List.not_mem_nil, or_false] at hs hs'
  rcases hs with rfl | rfl | rfl | rfl <;>
    rcases hs' with rfl | rfl | rfl | rfl <;>
      simp only [windowOfEq13, windowOfEq14, windowOfEq15, windowOfEq16, inWindow_ncw,
        inWindow_cw] at h1 h2 <;>
      first
      | exact absurd rfl hne
      | (casesm* _ ∧ _, _ ∨ _ <;>
          (unfold apicalBoundary
           first
           | (exfalso; linarith)
           | (left; linarith)
           | (right; left; linarith)
           | (right; right; left; linarith)
           | (right; right; right; linarith)))

theorem dcThird_bounds (C : Ctx) :
    (0 ≤ comMvZ C - infLimit C ∧ 0 ≤ dcThird C ∧
      3 * dcThird C ≤ comMvZ C - infLimit C) ∨
    (comMvZ C - infLimit C < 0 ∧ comMvZ C - infLimit C ≤ 2 * dcThird C ∧
      dcThird C ≤ 0) := by
  unfold dcThird pyIntDiv
  rcases le_or_lt 0 (comMvZ C - infLimit C) with h | h
  · left
    rw [Int.tdiv_eq_ediv h (by omega)]
    omega
  · right
    have h1 : Int.tdiv (comMvZ C - infLimit C) 3 =
        -(Int.tdiv (-(comMvZ C - infLimit C)) 3) := by
      rw [← Int.neg_tdiv, neg_neg]
    rw [h1, Int.tdiv_eq_ediv (by omega) (by omega)]
    omega

theorem bands_disjoint {C : Ctx} {z : ℤ} {b b' : BandT} (hne : b ≠ b')
    (hz : zInBand C b z) (hz' : zInBand C b' z) : False := by
  rcases dcThird_bounds C with ⟨k1, k2, k3⟩ | ⟨k1, k2, k3⟩ <;>
    cases b <;> cases b' <;>
      simp only [zInBand, apicalExtent, midExtent, basalExtent] at hz hz' <;>
      first
      | exact hne rfl
      | exact hz
      | exact hz'
      | omega

theorem sliceAt_mem (img : List Vox3) (v : Vox3) : v.2 ∈ sliceAt img v.1 ↔ v ∈ img := by
  unfold sliceAt
  rw [List.mem_filterMap]
  constructor
  · rintro ⟨a, ha, hfa⟩
    split_ifs at hfa with h
    · have h2 : a.2 = v.2 := Option.some.inj hfa
      have ha' : a = v := Prod.ext h h2
      rwa [ha'] at ha
  · intro hv
    exact ⟨v, hv, by simp⟩

theorem band_apex_eq {s : ℕ} (h : bandOfSeg s = .apex) : s = 17 := by
  unfold bandOfSeg at h
  split_ifs at h with h17 h13 h7 h6 <;> first | exact h17 | simp at h

theorem band_apical_mem {s : ℕ} (h : bandOfSeg s = .apical) : s ∈ apicalIds := by
  unfold bandOfSeg at h
  split_ifs at h with h17 h13 h7 h6 <;> try simp at h
  obtain ⟨ha, hb⟩ := h13
  interval_cases s <;> simp [apicalIds]

theorem band_mid_mem {s : ℕ} (h : bandOfSeg s = .mid) : s ∈ midIds := by
  unfold bandOfSeg at h
  split_ifs at h with h17 h13 h7 h6 <;> try simp at h
  obtain ⟨ha, hb⟩ := h7
  interval_cases s <;> simp [midIds]

theorem band_basal_mem {s : ℕ} (h : bandOfSeg s = .basal) : s ∈ basalIds := by
  unfold bandOfSeg at h
  split_ifs at h with h17 h13 h7 h6 <;> try simp at h
  obtain ⟨ha, hb⟩ := h6
  interval_cases s <;> simp [basalIds]

theorem mem_apical_band {s : ℕ} (h : s ∈ apicalIds) : bandOfSeg s = .apical := by
  simp only [apicalIds, List.mem_cons, List.not_mem_nil, or_false] at h
  rcases h with rfl | rfl | rfl | rfl <;> decide

theorem mem_mid_band {s : ℕ} (h : s ∈ midIds) : bandOfSeg s = .mid := by
  simp only [midIds, List.mem_cons, List.not_mem_nil, or_false] at h
  rcases h with rfl | rfl | rfl | rfl | rfl | rfl <;> decide

theorem mem_basal_band {s : ℕ} (h : s ∈ basalIds) : bandOfSeg s = .basal := by
  simp only [basalIds, List.mem_cons, List.not_mem_nil, or_false] at h
  rcases h with rfl | rfl | rfl | rfl | rfl | rfl <;> decide

theorem thetaAt_nonneg (C : Ctx) (ref : ℝ) (v : Vox3) (h2 : ref ≤ π) :
    0 ≤ thetaAt C ref v := by
  unfold thetaAt
  have ha := arctan2_le_pi
    ((v.2.1 - (getCom2 (sliceAt (lvMyo C) v.1)).1 : ℤ) : ℝ)
    ((v.2.2 - (getCom2 (sliceAt (lvMyo C) v.1)).2 : ℤ) : ℝ)
  unfold norm2pi
  split_ifs with h
  · linarith
  · linarith [not_lt.mp h]

theorem thetaAt_lt_two_pi (C : Ctx) (ref : ℝ) (v : Vox3) (h1 : -π < ref) :
    thetaAt C ref v < 2 * π := by
  unfold thetaAt
  have hb := neg_pi_lt_arctan2
    ((v.2.1 - (getCom2 (sliceAt (lvMyo C) v.1)).1 : ℤ) : ℝ)
    ((v.2.2 - (getCom2 (sliceAt (lvMyo C) v.1)).2 : ℤ) : ℝ)
  unfold norm2pi
  split_ifs with h
  · linarith
  · linarith

theorem theta0Apical_range (C : Ctx) : -π < theta0Apical C ∧ theta0Apical C ≤ π := by
  unfold theta0Apical
  exact ⟨neg_pi_lt_arctan2 _ _, arctan2_le_pi _ _⟩

theorem basal_window_nonneg_min {s : ℕ} (hs : s ∈ basalIds) {t : ℝ} (ht : t < 0) :
    ¬ inWindow (windowOf s) t := by
  have hpi := Real.pi_pos
  simp only [basalIds, List.mem_cons, List.not_mem_nil, or_false] at hs
  rcases hs with rfl | rfl | rfl | rfl | rfl | rfl <;>
    · intro hw
      simp only [windowOfEq1, windowOfEq2, windowOfEq3, windowOfEq4, windowOfEq5,
        windowOfEq6, inWindow_ncw] at hw
      obtain ⟨ha, hb⟩ := hw
      linarith

theorem scenA_segPos10 : segPos ctxA 10 ((4 : ℤ), (1 : ℤ), (0 : ℤ)) := by
  refine Or.inr ⟨Or.inr (Or.inl (by decide)), ?_, ?_, ?_⟩
  · show zInBand ctxA .mid 4
    refine ⟨?_, ?_⟩
    · rw [apicalExtent_A]
    · rw [midExtent_A]
      norm_num
  · rw [show ((4 : ℤ), (1 : ℤ), (0 : ℤ)).2 = ((1 : ℤ), (0 : ℤ)) from rfl, sliceMyo4_A]
    decide
  · show inWindow (windowOf 10) (thetaAt ctxA (theta0 ctxA) ((4 : ℤ), (1 : ℤ), (0 : ℤ)))
    rw [thetaAt_A_mid, windowOfEq10, inWindow_ncw]
    have hpi := Real.pi_pos
    constructor <;> linarith

theorem scenA_segPos11 : segPos ctxA 11 ((4 : ℤ), (1 : ℤ), (0 : ℤ)) := by
  refine Or.inr ⟨Or.inr (Or.inl (by decide)), ?_, ?_, ?_⟩
  · show zInBand ctxA .mid 4
    refine ⟨?_, ?_⟩
    · rw [apicalExtent_A]
    · rw [midExtent_A]
      norm_num
  · rw [show ((4 : ℤ), (1 : ℤ), (0 : ℤ)).2 = ((1 : ℤ), (0 : ℤ)) from rfl, sliceMyo4_A]
    decide
  · show inWindow (windowOf 11) (thetaAt ctxA (theta0 ctxA) ((4 : ℤ), (1 : ℤ), (0 : ℤ)))
    rw [thetaAt_A_mid, windowOfEq11, inWindow_ncw]
    have hpi := Real.pi_pos
    constructor <;> linarith

/-- C1 (counterexample): on a concrete aligned mask set, the voxel
`(z, y, x) = (4, 1, 0)` (a mid-band myocardial voxel whose relative
angle is exactly `π`, the shared endpoint of the closed windows of
segments 10 and 11) is positive in two different segment volumes, so the
17 working segment volumes are not pairwise disjoint. -/
theorem c1_counterexample :
    (10 : ℕ) ≠ 11 ∧ segPos ctxA 10 ((4 : ℤ), (1 : ℤ), (0 : ℤ)) ∧
      segPos ctxA 11 ((4 : ℤ), (1 : ℤ), (0 : ℤ)) :=
  ⟨by decide, scenA_segPos10, scenA_segPos11⟩

/-- C1 (amended): before hole-filling, two distinct segment volumes can
both be positive at a voxel only when the two segments belong to the
same band and the voxel's relative polar angle is exactly a shared
endpoint of that band's closed angular windows; segments of different
bands never share a voxel. -/
theorem c1_segments_disjoint_up_to_boundary (C : Ctx) (s s' : ℕ) (v : Vox3)
    (hne : s ≠ s') (h1 : segPos C s v) (h2 : segPos C s' v) :
    bandOfSeg s = bandOfSeg s' ∧
    ((bandOfSeg s = .apical ∧ apicalBoundary (thetaAt C (theta0Apical C) v)) ∨
     ((bandOfSeg s = .mid ∨ bandOfSeg s = .basal) ∧
        midBoundary (thetaAt C (theta0 C) v))) := by
  rcases h1 with ⟨hb1, hm1, hz1⟩ | ⟨hb1, hz1, hs1, hw1⟩ <;>
    rcases h2 with ⟨hb2, hm2, hz2⟩ | ⟨hb2, hz2, hs2, hw2⟩
  · exact absurd ((band_apex_eq hb1).trans (band_apex_eq hb2).symm) hne
  · exfalso
    have hza : zInBand C .apex v.1 := hz1
    rcases hb2 with hb2 | hb2 | hb2 <;> rw [hb2] at hz2 <;>
      exact bands_disjoint (by decide) hza hz2
  · exfalso
    have hza : zInBand C .apex v.1 := hz2
    rcases hb1 with hb1 | hb1 | hb1 <;> rw [hb1] at hz1 <;>
      exact bands_disjoint (by decide) hza hz1
  · rcases hb1 with hb1 | hb1 | hb1 <;> rcases hb2 with hb2 | hb2 | hb2 <;>
      rw [hb1] at hz1 hw1 <;> rw [hb2] at hz2 hw2 <;>
      simp only [bandRef] at hw1 hw2
    · exact ⟨hb1.trans hb2.symm, Or.inl ⟨hb1,
        apical_windows_unique (band_apical_mem hb1) (band_apical_mem hb2) hne hw1 hw2⟩⟩
    · exact (@bands_disjoint _ _ BandT.apical BandT.mid (by decide) hz1 hz2).elim
    · exact (@bands_disjoint _ _ BandT.apical BandT.basal (by decide) hz1 hz2).elim
    · exact (@bands_disjoint _ _ BandT.mid BandT.apical (by decide) hz1 hz2).elim
    · exact ⟨hb1.trans hb2.symm, Or.inr ⟨Or.inl hb1,
        mid_windows_unique (band_mid_mem hb1) (band_mid_mem hb2) hne hw1 hw2⟩⟩
    · exact (@bands_disjoint _ _ BandT.mid BandT.basal (by decide) hz1 hz2).elim
    · exact (@bands_disjoint _ _ BandT.basal BandT.apical (by decide) hz1 hz2).elim
    · exact (@bands_disjoint _ _ BandT.basal BandT.mid (by decide) hz1 hz2).elim
    · exact ⟨hb1.trans hb2.symm, Or.inr ⟨Or.inr hb1,
        basal_windows_unique (band_basal_mem hb1) (band_basal_mem hb2) hne hw1 hw2⟩⟩

/-- C1 (witness): the amended disjointness statement evaluated at the
concrete double assignment of scenario A. -/
theorem c1_witness :
    bandOfSeg 10 = bandOfSeg 11 ∧
    ((bandOfSeg 10 = .apical ∧
        apicalBoundary (thetaAt ctxA (theta0Apical ctxA) ((4 : ℤ), (1 : ℤ), (0 : ℤ)))) ∨
     ((bandOfSeg 10 = .mid ∨ bandOfSeg 10 = .basal) ∧
        midBoundary (thetaAt ctxA (theta0 ctxA) ((4 : ℤ), (1 : ℤ), (0 : ℤ))))) :=
  c1_segments_disjoint_up_to_boundary ctxA 10 11 ((4 : ℤ), (1 : ℤ), (0 : ℤ))
    (by decide) scenA_segPos10 scenA_segPos11

/-- C2 (counterexample): the angle `π/3` lies in `[0, 2π)` and is
selected by the windows of two distinct mid-band segments (8 and 9),
because the non-wrap selection condition of `extract`
(`(angles <= angle_max) & (angles >= angle_min)`) is a closed interval,
not the half-open interval claimed; so the windows of a band do not
partition `[0, 2π)` exactly once. -/
theorem c2_counterexample :
    (0 : ℝ) ≤ π / 3 ∧ (π / 3 : ℝ) < 2 * π ∧
    (8 : ℕ) ≠ 9 ∧ 8 ∈ midIds ∧ 9 ∈ midIds ∧
    inWindow (windowOf 8) (π / 3) ∧ inWindow (windowOf 9) (π / 3) := by
  have hpi := Real.pi_pos
  refine ⟨by positivity, by linarith, by decide, by simp [midIds], by simp [midIds], ?_, ?_⟩
  · rw [windowOfEq8, inWindow_ncw]
    constructor <;> linarith
  · rw [windowOfEq9, inWindow_ncw]
    constructor <;> linarith

/-- C2 (amended): the non-wrap windows are closed intervals
`[min, max]` and the wrap window selects `theta ≤ min ∨ theta ≥ max`;
for every `theta` in `[0, 2π)` at least one window of each band selects
it, and two distinct windows of the same band can both select `theta`
only when `theta` is a shared window endpoint. -/
theorem c2_windows_cover_and_overlap_only_at_boundaries (t : ℝ)
    (h0 : 0 ≤ t) (h2 : t < 2 * π) :
    ((∃ s ∈ midIds, inWindow (windowOf s) t) ∧
     (∃ s ∈ basalIds, inWindow (windowOf s) t) ∧
     (∃ s ∈ apicalIds, inWindow (windowOf s) t)) ∧
    ((∀ s ∈ midIds, ∀ s' ∈ midIds, s ≠ s' →
        inWindow (windowOf s) t → inWindow (windowOf s') t → midBoundary t) ∧
     (∀ s ∈ basalIds, ∀ s' ∈ basalIds, s ≠ s' →
        inWindow (windowOf s) t → inWindow (windowOf s') t → midBoundary t) ∧
     (∀ s ∈ apicalIds, ∀ s' ∈ apicalIds, s ≠ s' →
        inWindow (windowOf s) t → inWindow (windowOf s') t → apicalBoundary t)) :=
  ⟨⟨mid_cover h0 h2.le, basal_cover h0 h2.le, apical_cover t⟩,
   ⟨fun _ hs _ hs' hne hw hw' => mid_windows_unique hs hs' hne hw hw',
    fun _ hs _ hs' hne hw hw' => basal_windows_unique hs hs' hne hw hw',
    fun _ hs _ hs' hne hw hw' => apical_windows_unique hs hs' hne hw hw'⟩⟩

/-- C2 (witness): the amended window statement evaluated at `theta = 0`. -/
theorem c2_witness :
    ((∃ s ∈ midIds, inWindow (windowOf s) (0 : ℝ)) ∧
     (∃ s ∈ basalIds, inWindow (windowOf s) (0 : ℝ)) ∧
     (∃ s ∈ apicalIds, inWindow (windowOf s) (0 : ℝ))) ∧
    ((∀ s ∈ midIds, ∀ s' ∈ midIds, s ≠ s' →
        inWindow (windowOf s) (0 : ℝ) → inWindow (windowOf s') (0 : ℝ) →
        midBoundary (0 : ℝ)) ∧
     (∀ s ∈ basalIds, ∀ s' ∈ basalIds, s ≠ s' →
        inWindow (windowOf s) (0 : ℝ) → inWindow (windowOf s') (0 : ℝ) →
        midBoundary (0 : ℝ)) ∧
     (∀ s ∈ apicalIds, ∀ s' ∈ apicalIds, s ≠ s' →
        inWindow (windowOf s) (0 : ℝ) → inWindow (windowOf s') (0 : ℝ) →
        apicalBoundary (0 : ℝ))) :=
  c2_windows_cover_and_overlap_only_at_boundaries 0 le_rfl
    (by positivity)

/-- C3 (counterexample): on a concrete aligned mask set whose basal
reference angle is `3π/2`, the basal-band myocardial voxel
`(z, y, x) = (7, 0, -1)` has a negative normalised relative angle and is
selected by none of the segments 1-6, so the union of segments 1-6 does
not cover the basal myocardial band. -/
theorem c3_counterexample :
    ((7 : ℤ), (0 : ℤ), (-1 : ℤ)) ∈ lvMyo ctxB ∧
    zInBand ctxB .basal 7 ∧
    ∀ s ∈ basalIds, ¬ segPos ctxB s ((7 : ℤ), (0 : ℤ), (-1 : ℤ)) := by
  refine ⟨?_, ⟨by rw [midExtent_B], by rw [basalExtent_B]; norm_num⟩, ?_⟩
  · rw [← sliceAt_mem, show ((7 : ℤ), (0 : ℤ), (-1 : ℤ)).2 = ((0 : ℤ), (-1 : ℤ)) from rfl,
      show ((7 : ℤ), (0 : ℤ), (-1 : ℤ)).1 = (7 : ℤ) from rfl, sliceMyo7_B]
    decide
  · intro s hs hseg
    have ht0 : thetaAt ctxB (theta0 ctxB) ((7 : ℤ), (0 : ℤ), (-1 : ℤ)) < 0 := by
      rw [thetaAt_B_basal]
      linarith [Real.pi_pos]
    simp only [basalIds, List.mem_cons, List.not_mem_nil, or_false] at hs
    rcases hseg with ⟨hb, _⟩ | ⟨_, _, _, hw⟩
    · rcases hs with rfl | rfl | rfl | rfl | rfl | rfl <;> exact absurd hb (by decide)
    · rcases hs with rfl | rfl | rfl | rfl | rfl | rfl <;>
        exact basal_window_nonneg_min (by simp [basalIds]) ht0 hw

/-- C3 (amended): every positive voxel of a segment volume is a
myocardial voxel of that segment's band (so no voxel is assigned to a
segment of another band); conversely the apex cap and the apical band
are fully covered by their segments, while a mid- or basal-band
myocardial voxel is covered provided its normalised relative angle is
nonnegative (always true when `0 ≤ theta_0 ≤ π`; scenario B shows it
can fail otherwise). -/
theorem c3_band_partition (C : Ctx) (v : Vox3) :
    (∀ s : ℕ, segPos C s v →
      v ∈ lvMyo C ∧
      ((s = 17 ∧ zInBand C BandT.apex v.1) ∨
       (s ∈ apicalIds ∧ zInBand C BandT.apical v.1) ∨
       (s ∈ midIds ∧ zInBand C BandT.mid v.1) ∨
       (s ∈ basalIds ∧ zInBand C BandT.basal v.1))) ∧
    (v ∈ lvMyo C →
      (zInBand C BandT.apex v.1 → segPos C 17 v) ∧
      (zInBand C BandT.apical v.1 → ∃ s ∈ apicalIds, segPos C s v) ∧
      (0 ≤ theta0 C →
        (zInBand C BandT.mid v.1 → 0 ≤ thetaAt C (theta0 C) v →
          ∃ s ∈ midIds, segPos C s v) ∧
        (zInBand C BandT.basal v.1 → 0 ≤ thetaAt C (theta0 C) v →
          ∃ s ∈ basalIds, segPos C s v))) := by
  constructor
  · intro s hseg
    rcases hseg with ⟨hb, hm, hz⟩ | ⟨hb, hz, hsl, hw⟩
    · exact ⟨hm, Or.inl ⟨band_apex_eq hb, hz⟩⟩
    · refine ⟨(sliceAt_mem (lvMyo C) v).mp hsl, ?_⟩
      rcases hb with hb | hb | hb <;> rw [hb] at hz
      · exact Or.inr (Or.inl ⟨band_apical_mem hb, hz⟩)
      · exact Or.inr (Or.inr (Or.inl ⟨band_mid_mem hb, hz⟩))
      · exact Or.inr (Or.inr (Or.inr ⟨band_basal_mem hb, hz⟩))
  · intro hm
    refine ⟨?_, ?_, ?_⟩
    · intro hz
      exact Or.inl ⟨by decide, hm, hz⟩
    · intro hz
      obtain ⟨s, hsmem, hwin⟩ := apical_cover (thetaAt C (theta0Apical C) v)
      have hb := mem_apical_band hsmem
      refine ⟨s, hsmem, Or.inr ⟨Or.inl hb, ?_, (sliceAt_mem (lvMyo C) v).mpr hm, ?_⟩⟩
      · rw [hb]
        exact hz
      · rw [hb]
        simp only [bandRef]
        exact hwin
    · intro h00
      have hlt : thetaAt C (theta0 C) v < 2 * π :=
        thetaAt_lt_two_pi C (theta0 C) v (by linarith [Real.pi_pos])
      constructor
      · intro hz h0t
        obtain ⟨s, hsmem, hwin⟩ := mid_cover h0t hlt.le
        have hb := mem_mid_band hsmem
        refine ⟨s, hsmem, Or.inr ⟨Or.inr (Or.inl hb), ?_,
          (sliceAt_mem (lvMyo C) v).mpr hm, ?_⟩⟩
        · rw [hb]
          exact hz
        · rw [hb]
          simp only [bandRef]
          exact hwin
      · intro hz h0t
        obtain ⟨s, hsmem, hwin⟩ := basal_cover h0t hlt.le
        have hb := mem_basal_band hsmem
        refine ⟨s, hsmem, Or.inr ⟨Or.inr (Or.inr hb), ?_,
          (sliceAt_mem (lvMyo C) v).mpr hm, ?_⟩⟩
        · rw [hb]
          exact hz
        · rw [hb]
          simp only [bandRef]
          exact hwin

/-- C3 (witness): the amended coverage statement applied to the concrete
mid-band myocardial voxel of scenario A produces its segment. -/
theorem c3_witness : ∃ s ∈ midIds, segPos ctxA s ((4 : ℤ), (1 : ℤ), (0 : ℤ)) := by
  have hm : ((4 : ℤ), (1 : ℤ), (0 : ℤ)) ∈ lvMyo ctxA := by
    rw [← sliceAt_mem, show ((4 : ℤ), (1 : ℤ), (0 : ℤ)).2 = ((1 : ℤ), (0 : ℤ)) from rfl,
      show ((4 : ℤ), (1 : ℤ), (0 : ℤ)).1 = (4 : ℤ) from rfl, sliceMyo4_A]
    decide
  have h := (c3_band_partition ctxA ((4 : ℤ), (1 : ℤ), (0 : ℤ))).2 hm
  refine (h.2.2 ?_).1 ?_ ?_
  · rw [theta0_A]
    positivity
  · exact ⟨by rw [apicalExtent_A], by rw [midExtent_A]; norm_num⟩
  · rw [thetaAt_A_mid]
    positivity

/-- C4 (counterexample): on a concrete aligned mask set whose basal
reference angle `theta_0 = 3π/2` exceeds `π`, the basal myocardial voxel
`(z, y, x) = (7, 0, -1)` has normalised relative angle `-π/2`, which is
negative: the normalisation step adds `2π` only once, so the result does
not lie in `[0, 2π)`. -/
theorem c4_counterexample :
    ((7 : ℤ), (0 : ℤ), (-1 : ℤ)) ∈ lvMyo ctxB ∧
    zInBand ctxB .basal 7 ∧
    thetaAt ctxB (theta0 ctxB) ((7 : ℤ), (0 : ℤ), (-1 : ℤ)) < 0 := by
  refine ⟨?_, ⟨by rw [midExtent_B], by rw [basalExtent_B]; norm_num⟩, ?_⟩
  · rw [← sliceAt_mem, show ((7 : ℤ), (0 : ℤ), (-1 : ℤ)).2 = ((0 : ℤ), (-1 : ℤ)) from rfl,
      show ((7 : ℤ), (0 : ℤ), (-1 : ℤ)).1 = (7 : ℤ) from rfl, sliceMyo7_B]
    decide
  · rw [thetaAt_B_basal]
    linarith [Real.pi_pos]

/-- C4 (amended): for every voxel the apical relative angle (reference
`theta_0_apical`, an `arctan2` value in `(-π, π]`) is normalised into
`[0, 2π)`; the basal/mid relative angle (reference `theta_0`) is
normalised into `[0, 2π)` provided `0 ≤ theta_0 ≤ π` (scenario B shows
it stays negative when `theta_0 > π`). -/
theorem c4_theta_normalisation_range (C : Ctx) (v : Vox3) :
    (0 ≤ thetaAt C (theta0Apical C) v ∧ thetaAt C (theta0Apical C) v < 2 * π) ∧
    (0 ≤ theta0 C → theta0 C ≤ π →
      0 ≤ thetaAt C (theta0 C) v ∧ thetaAt C (theta0 C) v < 2 * π) := by
  obtain ⟨ha1, ha2⟩ := theta0Apical_range C
  refine ⟨⟨thetaAt_nonneg C _ v ha2, thetaAt_lt_two_pi C _ v ha1⟩, ?_⟩
  intro h0 h1
  exact ⟨thetaAt_nonneg C _ v h1,
    thetaAt_lt_two_pi C _ v (by linarith [Real.pi_pos])⟩

/-- C4 (witness): the amended range statement evaluated on scenario A
(`theta_0 = π/2`) at the voxel `(4, 1, 0)`. -/
theorem c4_witness :
    (0 ≤ thetaAt ctxA (theta0Apical ctxA) ((4 : ℤ), (1 : ℤ), (0 : ℤ)) ∧
      thetaAt ctxA (theta0Apical ctxA) ((4 : ℤ), (1 : ℤ), (0 : ℤ)) < 2 * π) ∧
    (0 ≤ thetaAt ctxA (theta0 ctxA) ((4 : ℤ), (1 : ℤ), (0 : ℤ)) ∧
      thetaAt ctxA (theta0 ctxA) ((4 : ℤ), (1 : ℤ), (0 : ℤ)) < 2 * π) :=
  ⟨(c4_theta_normalisation_range ctxA ((4 : ℤ), (1 : ℤ), (0 : ℤ))).1,
   (c4_theta_normalisation_range ctxA ((4 : ℤ), (1 : ℤ), (0 : ℤ))).2
     (by rw [theta0_A]; positivity)
     (by rw [theta0_A]; linarith [Real.pi_pos])⟩

theorem lvInner_C :
    lvInner ctxC = [(1, 0, 0), (2, 0, 0), (3, 0, 0), (4, 0, 0), (5, 0, 0),
      (6, 0, 0), (7, 0, 0), (8, 0, 0), (9, 0, 0), (10, 0, 0)] := by decide

theorem infLimit_C : infLimit ctxC = 1 := by
  unfold infLimit
  rw [lvInner_C]
  decide

/-- C6 (counterexample): with the mitral-valve centroid one slice below
the inferior limit (`extent = -1`), the code's `int(extent / 3)`
truncates toward zero and yields `0`, while floor (integer) division
`extent // 3` yields `-1`; so `third` is not computed by integer (floor)
division. -/
theorem c6_counterexample :
    dcThird ctxC ≠ Int.fdiv (comMvZ ctxC - infLimit ctxC) 3 ∧
    dcThird ctxC = 0 ∧ Int.fdiv (comMvZ ctxC - infLimit ctxC) 3 = -1 := by
  have h1 : comMvZ ctxC = 0 := by decide
  have h2 : dcThird ctxC = 0 := by
    unfold dcThird pyIntDiv
    rw [h1, infLimit_C]
    decide
  refine ⟨?_, h2, ?_⟩
  · rw [h2, h1, infLimit_C]
    decide
  · rw [h1, infLimit_C]
    decide

/-- C6 (amended): `third` is `int((mv_coord - inf_limit) / 3)`, i.e.
truncation toward zero, which agrees with floor (integer) division
whenever `mv_coord ≥ inf_limit`; the apex cap is the slices strictly
below `inf_limit`, the apical band `[inf_limit, inf_limit + third)`, the
mid band `[inf_limit + third, inf_limit + 2 * third)` and the basal band
`[inf_limit + 2 * third, mv_coord)`. -/
theorem c6_axial_bands (C : Ctx) :
    dcThird C = Int.tdiv (comMvZ C - infLimit C) 3 ∧
    (infLimit C ≤ comMvZ C →
      dcThird C = Int.fdiv (comMvZ C - infLimit C) 3) ∧
    (∀ z : ℤ, zInBand C .apex z ↔ z < infLimit C) ∧
    (∀ z : ℤ, zInBand C .apical z ↔
      infLimit C ≤ z ∧ z < infLimit C + dcThird C) ∧
    (∀ z : ℤ, zInBand C .mid z ↔
      infLimit C + dcThird C ≤ z ∧ z < infLimit C + 2 * dcThird C) ∧
    (∀ z : ℤ, zInBand C .basal z ↔
      infLimit C + 2 * dcThird C ≤ z ∧ z < comMvZ C) := by
  refine ⟨rfl, ?_, fun z => Iff.rfl, fun z => Iff.rfl, fun z => Iff.rfl, fun z => Iff.rfl⟩
  intro h
  unfold dcThird pyIntDiv
  rw [Int.tdiv_eq_ediv (by omega) (by omega), Int.fdiv_eq_ediv _ (by omega)]

/-- C6 (witness): on scenario A (`inf_limit = 1`, `mv_coord = 10`) the
truncated third agrees with floor division. -/
theorem c6_witness : dcThird ctxA = Int.fdiv (comMvZ ctxA - infLimit ctxA) 3 :=
  (c6_axial_bands ctxA).2.1 (by rw [infLimit_A]; decide)

theorem sliceAt_eq_filter_map (img : List Vox3) (z : ℤ) :
    sliceAt img z = (img.filter fun v => decide (v.1 = z)).map fun v => v.2 := by
  induction img with
  | nil => rfl
  | cons a l ih =>
      unfold sliceAt
      unfold sliceAt at ih
      rw [List.filterMap_cons, List.filter_cons]
      by_cases h : a.1 = z
      · rw [if_pos h, if_pos (by simp [h]), List.map_cons, ih]
      · rw [if_neg h, if_neg (by simp [h]), ih]

theorem thetaRvMin_eq_spec (C : Ctx) (z : ℤ) :
    thetaRvMin C z = rvInsertionMinSpec C z := by
  unfold thetaRvMin thetaRvList rvInsertionMinSpec
  rw [sliceAt_eq_filter_map C.rv z, List.map_map]
  rfl

/-- C7: the embedded `theta_0` (lines 283-304: `np.where` location
arrays filtered per slice with `np.in1d`, `arctan2`, normalisation of
the whole array, `min`, then `np.median` over
`np.arange(mid_extent, mid_extent + 5)`) equals the claim's description:
the median over exactly the 5 slices starting at the mid/basal boundary
of the per-slice minimum of the RV voxels' normalised polar angles about
that slice's LV centroid. -/
theorem c7_theta0_is_median_of_slice_minima (C : Ctx) : theta0 C = theta0Spec C := by
  unfold theta0 theta0Spec
  rw [show List.range 5 = [0, 1, 2, 3, 4] from rfl]
  norm_num [thetaRvMin_eq_spec]

/-- C7 (witness): the equality of the embedded and spec-side `theta_0`
evaluated on the concrete scenario A. -/
theorem c7_witness : theta0 ctxA = theta0Spec ctxA :=
  c7_theta0_is_median_of_slice_minima ctxA

end Ventricle

namespace Align

theorem ebind_ok {α β : Type} (a : α) (f : α → Except Err β) :
    (Except.ok a >>= f) = f a := rfl

theorem ebind_error {α β : Type} (e : Err) (f : α → Except Err β) :
    ((Except.error e : Except Err α) >>= f) = Except.error e := rfl

theorem emap_ok {α β : Type} (f : α → β) (a : α) :
    Except.map f (Except.ok a : Except Err α) = Except.ok (f a) := rfl

theorem emap_error {α β : Type} (f : α → β) (e : Err) :
    Except.map f (Except.error e : Except Err α) = Except.error e := rfl

theorem refineLoop_zero (ext : Ext) (lblLV lblMV : String) (tol : ℝ)
    (angle : ℝ) (w : List (String × Img)) (acc : List Rigid) :
    refineLoop ext lblLV lblMV tol 0 angle w acc = .ok (w, acc) := rfl

theorem initialStage_angle_shape {ext : Ext} {cs : List (String × Img)}
    {lblLV lblLA lblHeart : String} {myoThk holeFill : ℚ}
    {r : List (String × Img) × Rigid × ℝ}
    (heq : initialStage ext cs lblLV lblLA lblHeart myoThk holeFill = .ok r) :
    ∃ im, r.2.2 = initialAngle ext im := by
  unfold initialStage at heq
  cases h1 : lookupE cs lblLV with
  | error e => rw [h1] at heq; simp only [ebind_error] at heq; cases heq
  | ok lvImg =>
  rw [h1] at heq
  simp only [ebind_ok] at heq
  cases h2 : lookupE cs lblHeart with
  | error e => rw [h2] at heq; simp only [ebind_error] at heq; cases heq
  | ok heartImg =>
  rw [h2] at heq
  simp only [ebind_ok] at heq
  cases h3 : labelToRoi heartImg (30, 30, 60) with
  | error e => rw [h3] at heq; simp only [ebind_error] at heq; cases heq
  | ok box =>
  rw [h3] at heq
  simp only [ebind_ok] at heq
  cases h4 : lookupE (cs.map fun p => (p.1, cropTo box p.2)) lblLV with
  | error e => rw [h4] at heq; simp only [ebind_error] at heq; cases heq
  | ok lvC =>
  rw [h4] at heq
  simp only [ebind_ok] at heq
  cases h5 : lookupE (cs.map fun p => (p.1, cropTo box p.2)) lblLA with
  | error e => rw [h5] at heq; simp only [ebind_error] at heq; cases heq
  | ok laC =>
  rw [h5] at heq
  simp only [ebind_ok] at heq
  cases h6 : comPhysE ext (orientUnion lvC laC) with
  | error e => rw [h6] at heq; simp only [ebind_error] at heq; cases heq
  | ok ctr =>
  rw [h6] at heq
  simp only [ebind_ok] at heq
  refine ⟨orientUnion lvC laC, ?_⟩
  cases heq
  rfl

/-- C8: with `optimiser_max_iter = 0` the alignment stage is exactly the
initial principal-axis alignment: the result's transform sequence is the
one-element list holding the initial rigid transform, and the refinement
loop with zero budget returns immediately for every state. -/
theorem c8_zero_iterations_initial_only (ext : Ext) (cs : List (String × Img))
    (lblLV lblLA lblMV lblHeart : String) (myoThk holeFill tolDeg : ℚ) :
    module12 ext cs lblLV lblLA lblMV lblHeart myoThk holeFill tolDeg 0 =
      Except.map (fun r => (r.1, [r.2.1]))
        (initialStage ext cs lblLV lblLA lblHeart myoThk holeFill) ∧
    (∀ (angle : ℝ) (w : List (String × Img)) (acc : List Rigid),
      refineLoop ext lblLV lblMV (tolRad tolDeg) 0 angle w acc = .ok (w, acc)) := by
  constructor
  · unfold module12
    cases h : initialStage ext cs lblLV lblLA lblHeart myoThk holeFill with
    | error e => rw [ebind_error, emap_error]
    | ok r => rw [ebind_ok, emap_ok, refineLoop_zero]
  · intro angle w acc
    exact refineLoop_zero ext lblLV lblMV (tolRad tolDeg) angle w acc

/-- C10: the first test of the refinement-loop guard reuses the rotation
angle computed by the initial principal-axis alignment (line 135), so if
that angle is already within tolerance the loop body executes zero times
for every iteration budget, and the transform sequence stays the
one-element initial list. -/
theorem c10_guard_reuses_initial_angle (ext : Ext) (cs : List (String × Img))
    (lblLV lblLA lblMV lblHeart : String) (myoThk holeFill tolDeg : ℚ)
    (maxIter : ℕ)
    (h : ∀ im, |initialAngle ext im| ≤ tolRad tolDeg) :
    module12 ext cs lblLV lblLA lblMV lblHeart myoThk holeFill tolDeg maxIter =
      Except.map (fun r => (r.1, [r.2.1]))
        (initialStage ext cs lblLV lblLA lblHeart myoThk holeFill) := by
  unfold module12
  cases hinit : initialStage ext cs lblLV lblLA lblHeart myoThk holeFill with
  | error e => rw [ebind_error, emap_error]
  | ok r =>
      obtain ⟨im, him⟩ := initialStage_angle_shape hinit
      rw [ebind_ok, emap_ok]
      cases maxIter with
      | zero => exact refineLoop_zero ext lblLV lblMV (tolRad tolDeg) r.2.2 r.1 [r.2.1]
      | succ n =>
          show refineLoop ext lblLV lblMV (tolRad tolDeg) (n + 1) r.2.2 r.1 [r.2.1] =
            .ok (r.1, [r.2.1])
          rw [him]
          simp only [refineLoop]
          rw [if_pos (h im)]

theorem module12_heart_absent {ext : Ext} {cs : List (String × Img)}
    {lblLV lblLA lblMV lblHeart : String} {myoThk holeFill tolDeg : ℚ}
    {maxIter : ℕ} {lvImg : Img}
    (hlv : lookupE cs lblLV = .ok lvImg)
    (hh : lookupE cs lblHeart = .error (.keyError lblHeart)) :
    module12 ext cs lblLV lblLA lblMV lblHeart myoThk holeFill tolDeg maxIter =
      .error (.keyError lblHeart) := by
  unfold module12 initialStage
  rw [hlv]
  simp only [ebind_ok]
  rw [hh]
  simp only [ebind_error]

theorem module12_heart_empty {ext : Ext} {cs : List (String × Img)}
    {lblLV lblLA lblMV lblHeart : String} {myoThk holeFill tolDeg : ℚ}
    {maxIter : ℕ} {lvImg heartImg : Img}
    (hlv : lookupE cs lblLV = .ok lvImg)
    (hh : lookupE cs lblHeart = .ok heartImg)
    (he : heartImg.vox = []) :
    module12 ext cs lblLV lblLA lblMV lblHeart myoThk holeFill tolDeg maxIter =
      .error .missingStructure := by
  unfold module12 initialStage
  rw [hlv]
  simp only [ebind_ok]
  rw [hh]
  simp only [ebind_ok]
  unfold labelToRoi
  rw [he]
  simp only [ebind_error]

theorem refineLoop_lv_empty {ext : Ext} {lblLV lblMV : String} {tol angle : ℝ}
    {w : List (String × Img)} {acc : List Rigid} {fuel : ℕ} {lv : Img}
    (ha : ¬ |angle| ≤ tol) (hlv : lookupE w lblLV = .ok lv) (he : lv.vox = []) :
    refineLoop ext lblLV lblMV tol (fuel + 1) angle w acc = .error .valueError := by
  simp only [refineLoop]
  rw [if_neg ha, hlv]
  simp only [ebind_ok]
  rw [he]

theorem refineLoop_mv_empty {ext : Ext} {lblLV lblMV : String} {tol angle : ℝ}
    {w : List (String × Img)} {acc : List Rigid} {fuel : ℕ} {lv mvIm : Img}
    {v0 : Vox3} {vs : List Vox3}
    (ha : ¬ |angle| ≤ tol) (hlv : lookupE w lblLV = .ok lv)
    (hc : lv.vox = v0 :: vs)
    (hmv : lookupE w lblMV = .ok mvIm) (hmve : mvIm.vox = []) :
    refineLoop ext lblLV lblMV tol (fuel + 1) angle w acc = .error .emptyMask := by
  simp only [refineLoop]
  rw [if_neg ha, hlv]
  simp only [ebind_ok]
  rw [hc, hmv]
  simp only [ebind_ok]
  unfold comPhysE
  rw [hmve]
  simp only [List.isEmpty_nil, if_pos, ebind_error]

/-- C5 (amended): when the whole-heart mask is absent from the input the
pipeline raises `KeyError` (Python dict access, line 104), not a
`MissingStructureError`; when the whole-heart mask is present but has no
positive voxels, `label_to_roi` (modelled from the spec) raises
`MissingStructureError`; inside the refinement loop an empty LV mask
raises `ValueError` (the `.min()` reduction over an empty array,
lines 169-171) and an empty mitral-valve mask raises `EmptyMaskError`
(`get_com`, modelled from the spec); in every case the stage terminates
immediately with the error and returns no partial result. -/
theorem c5_error_behaviour (ext : Ext) :
    (∀ (cs : List (String × Img)) (lblLV lblLA lblMV lblHeart : String)
       (myoThk holeFill tolDeg : ℚ) (maxIter : ℕ) (lvImg : Img),
       lookupE cs lblLV = .ok lvImg →
       lookupE cs lblHeart = .error (.keyError lblHeart) →
       module12 ext cs lblLV lblLA lblMV lblHeart myoThk holeFill tolDeg maxIter =
         .error (.keyError lblHeart)) ∧
    (∀ (cs : List (String × Img)) (lblLV lblLA lblMV lblHeart : String)
       (myoThk holeFill tolDeg : ℚ) (maxIter : ℕ) (lvImg heartImg : Img),
       lookupE cs lblLV = .ok lvImg →
       lookupE cs lblHeart = .ok heartImg → heartImg.vox = [] →
       module12 ext cs lblLV lblLA lblMV lblHeart myoThk holeFill tolDeg maxIter =
         .error .missingStructure) ∧
    (∀ (lblLV lblMV : String) (tol angle : ℝ) (w : List (String × Img))
       (acc : List Rigid) (fuel : ℕ) (lv : Img),
       ¬ |angle| ≤ tol → lookupE w lblLV = .ok lv → lv.vox = [] →
       refineLoop ext lblLV lblMV tol (fuel + 1) angle w acc =
         .error .valueError) ∧
    (∀ (lblLV lblMV : String) (tol angle : ℝ) (w : List (String × Img))
       (acc : List Rigid) (fuel : ℕ) (lv mvIm : Img) (v0 : Vox3) (vs : List Vox3),
       ¬ |angle| ≤ tol → lookupE w lblLV = .ok lv → lv.vox = v0 :: vs →
       lookupE w lblMV = .ok mvIm → mvIm.vox = [] →
       refineLoop ext lblLV lblMV tol (fuel + 1) angle w acc =
         .error .emptyMask) :=
  ⟨fun _ _ _ _ _ _ _ _ _ _ hlv hh => module12_heart_absent hlv hh,
   fun _ _ _ _ _ _ _ _ _ _ _ hlv hh he => module12_heart_empty hlv hh he,
   fun _ _ _ _ _ _ _ _ ha hlv he => refineLoop_lv_empty ha hlv he,
   fun _ _ _ _ _ _ _ _ _ _ _ ha hlv hc hmv hmve =>
     refineLoop_mv_empty ha hlv hc hmv hmve⟩

theorem one_not_le_tolRad : ¬ |(1 : ℝ)| ≤ tolRad 1 := by
  intro hc
  rw [abs_one] at hc
  unfold tolRad at hc
  have h1 : ((1 : ℚ) : ℝ) = 1 := by norm_num
  rw [h1] at hc
  have := Real.pi_lt_315
  linarith

/-- C5 (counterexample): on a concrete input whose whole-heart mask is
absent, the pipeline fails with `KeyError("WHOLEHEART")`, which is not
the `MissingStructureError` the claim names. -/
theorem c5_counterexample :
    module12 extW csNoHeart "LEFTVENTRICLE" "LEFTATRIUM" "MITRALVALVE" "WHOLEHEART"
      10 3 1 10 = .error (.keyError "WHOLEHEART") ∧
    Err.keyError "WHOLEHEART" ≠ Err.missingStructure := by
  constructor
  · exact @module12_heart_absent extW csNoHeart "LEFTVENTRICLE" "LEFTATRIUM" "MITRALVALVE" "WHOLEHEART" 10 3 1 10 imgU rfl rfl
  · decide

/-- C5 (witness): the four amended error behaviours evaluated on
concrete inputs. -/
theorem c5_witness :
    module12 extW csNoHeart "LEFTVENTRICLE" "LEFTATRIUM" "MITRALVALVE" "WHOLEHEART"
      10 3 1 5 = .error (.keyError "WHOLEHEART") ∧
    module12 extW csEmptyHeart "LEFTVENTRICLE" "LEFTATRIUM" "MITRALVALVE" "WHOLEHEART"
      10 3 1 5 = .error .missingStructure ∧
    refineLoop extW "LEFTVENTRICLE" "MITRALVALVE" (tolRad 1) 1 1 wLvEmpty [] =
      .error .valueError ∧
    refineLoop extW "LEFTVENTRICLE" "MITRALVALVE" (tolRad 1) 1 1 wMvEmpty [] =
      .error .emptyMask :=
  ⟨(c5_error_behaviour extW).1 csNoHeart _ _ _ _ _ _ _ _ imgU rfl rfl,
   (c5_error_behaviour extW).2.1 csEmptyHeart _ _ _ _ _ _ _ _ imgU imgE rfl rfl rfl,
   (c5_error_behaviour extW).2.2.1 _ _ _ _ wLvEmpty [] 0 imgE one_not_le_tolRad rfl rfl,
   (c5_error_behaviour extW).2.2.2 _ _ _ _ wMvEmpty [] 0 imgU imgE (0, 0, 0) []
     one_not_le_tolRad rfl rfl rfl rfl⟩

/-- C10 (witness): with externals whose angle measure is constantly `0`
(within the 1-degree tolerance), the pipeline with a budget of 7
iterations performs only the initial alignment. -/
theorem c10_witness :
    module12 extW csEmptyHeart "LEFTVENTRICLE" "LEFTATRIUM" "MITRALVALVE"
      "WHOLEHEART" 10 3 1 7 =
    Except.map (fun r => (r.1, [r.2.1]))
      (initialStage extW csEmptyHeart "LEFTVENTRICLE" "LEFTATRIUM" "WHOLEHEART"
        10 3) :=
  c10_guard_reuses_initial_angle extW csEmptyHeart "LEFTVENTRICLE" "LEFTATRIUM"
    "MITRALVALVE" "WHOLEHEART" 10 3 1 7
    (fun im => by
      rw [show initialAngle extW im = 0 from rfl, abs_zero]
      unfold tolRad
      positivity)

/-- C8 (witness): the zero-budget equation evaluated on a concrete run. -/
theorem c8_witness :
    module12 extW csEmptyHeart "LEFTVENTRICLE" "LEFTATRIUM" "MITRALVALVE"
      "WHOLEHEART" 10 3 1 0 =
    Except.map (fun r => (r.1, [r.2.1]))
      (initialStage extW csEmptyHeart "LEFTVENTRICLE" "LEFTATRIUM" "WHOLEHEART"
        10 3) :=
  (c8_zero_iterations_initial_only extW csEmptyHeart "LEFTVENTRICLE" "LEFTATRIUM"
    "MITRALVALVE" "WHOLEHEART" 10 3 1).1

end Align

namespace Alloc

theorem pres_mpure {V α : Type} (n0 : ℕ) (x : α) : Pres n0 (mpure (V := V) x) :=
  fun _ hn => ⟨hn, fun _ _ => rfl⟩

theorem pres_mbind {V α β : Type} {n0 : ℕ} {m : M V α} {f : α → M V β}
    (hm : Pres n0 m) (hf : ∀ x, Pres n0 (f x)) : Pres n0 (mbind m f) := by
  intro h hn
  obtain ⟨h1, h2⟩ := hm h hn
  obtain ⟨h3, h4⟩ := hf (m h).1 (m h).2 h1
  exact ⟨h3, fun a ha => (h4 a ha).trans (h2 a ha)⟩

theorem pres_readD {V : Type} (n0 : ℕ) (d : V) (a : ℕ) : Pres n0 (readD d a) :=
  fun _ hn => ⟨hn, fun _ _ => rfl⟩

theorem pres_allocM {V : Type} (n0 : ℕ) (v : V) : Pres n0 (allocM v) := by
  intro h hn
  refine ⟨by simp [allocM, Heap.alloc]; omega, fun a ha => ?_⟩
  simp only [allocM, Heap.alloc]
  rw [if_neg (by omega)]

theorem pres_writeM {V : Type} {n0 a : ℕ} (hfresh : n0 ≤ a) (v : V) :
    Pres n0 (writeM a v) := by
  intro h hn
  refine ⟨hn, fun b hb => ?_⟩
  simp only [writeM, Heap.write]
  rw [if_neg (by omega)]

theorem pres_mfor {V α : Type} {n0 : ℕ} {l : List α} {body : α → M V Unit}
    (hb : ∀ x ∈ l, Pres n0 (body x)) : Pres n0 (mfor l body) := by
  induction l with
  | nil => exact pres_mpure n0 ()
  | cons x xs ih =>
      exact pres_mbind (hb x (by simp)) fun _ =>
        ih fun y hy => hb y (by simp [hy])

theorem pres_mmap {V α β : Type} {n0 : ℕ} {l : List α} {body : α → M V β}
    (hb : ∀ x ∈ l, Pres n0 (body x)) : Pres n0 (mmap l body) := by
  induction l with
  | nil => exact pres_mpure n0 []
  | cons x xs ih =>
      exact pres_mbind (hb x (by simp)) fun y =>
        pres_mbind (ih fun z hz => hb z (by simp [hz])) fun ys =>
          pres_mpure n0 (y :: ys)

theorem retFresh_alloc_after {V α : Type} {n0 : ℕ} {m : M V α} {f : α → V}
    (hm : Pres n0 m) :
    RetFresh n0 (mbind m fun x => allocM (f x)) := by
  intro h hn
  obtain ⟨h1, _⟩ := hm h hn
  simpa [mbind, allocM, Heap.alloc] using h1

theorem mmap_fresh {V α : Type} {n0 : ℕ} {l : List α} {body : α → M V ℕ}
    (hp : ∀ x ∈ l, Pres n0 (body x)) (hr : ∀ x ∈ l, RetFresh n0 (body x)) :
    ∀ h : Heap V, n0 ≤ h.next → ∀ b ∈ (mmap l body h).1, n0 ≤ b := by
  induction l with
  | nil => intro h hn b hb; simp [mmap, mpure] at hb
  | cons x xs ih =>
      intro h hn b hb
      simp only [mmap, mbind, mpure] at hb
      rcases List.mem_cons.mp hb with hb1 | hb2
      · subst hb1
        exact hr x (by simp) h hn
      · obtain ⟨h1, _⟩ := hp x (by simp) h hn
        exact ih (fun z hz => hp z (by simp [hz])) (fun z hz => hr z (by simp [hz]))
          ((body x h).2) h1 b hb2

theorem presP_mpure {V α : Type} {n0 : ℕ} {x : α} {Q : α → Prop} (hx : Q x) :
    PresP (V := V) n0 (mpure x) Q :=
  fun _ hn => ⟨hn, fun _ _ => rfl, hx⟩

theorem presP_mbind {V α β : Type} {n0 : ℕ} {m : M V α} {f : α → M V β}
    {Q : α → Prop} {R : β → Prop}
    (hm : PresP n0 m Q) (hf : ∀ x, Q x → PresP n0 (f x) R) :
    PresP n0 (mbind m f) R := by
  intro h hn
  obtain ⟨h1, h2, hq⟩ := hm h hn
  obtain ⟨h3, h4, hr⟩ := hf (m h).1 hq (m h).2 h1
  exact ⟨h3, fun a ha => (h4 a ha).trans (h2 a ha), hr⟩

theorem presP_weaken {V α : Type} {n0 : ℕ} {m : M V α} {Q R : α → Prop}
    (hm : PresP n0 m Q) (himp : ∀ x, Q x → R x) : PresP n0 m R := by
  intro h hn
  obtain ⟨h1, h2, hq⟩ := hm h hn
  exact ⟨h1, h2, himp _ hq⟩

theorem presP_readD {V : Type} (n0 : ℕ) (d : V) (a : ℕ) :
    PresP n0 (readD d a) fun _ => True :=
  fun _ hn => ⟨hn, fun _ _ => rfl, trivial⟩

theorem presP_allocM {V : Type} (n0 : ℕ) (v : V) :
    PresP n0 (allocM v) fun a => n0 ≤ a := by
  intro h hn
  refine ⟨?_, fun a ha => ?_, hn⟩
  · simp only [allocM, Heap.alloc]
    omega
  · simp only [allocM, Heap.alloc]
    rw [if_neg (by omega)]

theorem presP_writeM {V : Type} {n0 a : ℕ} (hfresh : n0 ≤ a) (v : V) :
    PresP n0 (writeM a v) fun _ => True := by
  intro h hn
  refine ⟨hn, fun b hb => ?_, trivial⟩
  simp only [writeM, Heap.write]
  rw [if_neg (by omega)]

theorem presP_mfor {V α : Type} {n0 : ℕ} {l : List α} {body : α → M V Unit}
    (hb : ∀ x ∈ l, PresP n0 (body x) fun _ => True) :
    PresP n0 (mfor l body) fun _ => True := by
  induction l with
  | nil => exact presP_mpure trivial
  | cons x xs ih =>
      exact presP_mbind (hb x (by simp)) fun _ _ =>
        ih fun y hy => hb y (by simp [hy])

theorem presP_mmap {V α β : Type} {n0 : ℕ} {l : List α} {body : α → M V β}
    {Q : β → Prop} (hb : ∀ x ∈ l, PresP n0 (body x) Q) :
    PresP n0 (mmap l body) fun ys => ∀ y ∈ ys, Q y := by
  induction l with
  | nil => exact presP_mpure (by simp)
  | cons x xs ih =>
      refine presP_mbind (hb x (by simp)) fun y hy => ?_
      refine presP_mbind (ih fun z hz => hb z (by simp [hz])) fun ys hys => ?_
      refine presP_mpure ?_
      intro w hw
      rcases List.mem_cons.mp hw with rfl | hw2
      · exact hy
      · exact hys w hw2

theorem presP_alloc1 {V : Type} (n0 : ℕ) (d : V) (f : V → V) (src : ℕ) :
    PresP n0 (alloc1 d f src) fun a => n0 ≤ a :=
  presP_mbind (presP_readD n0 d src) fun v _ => presP_allocM n0 (f v)

theorem presP_alloc2 {V : Type} (n0 : ℕ) (d : V) (f : V → V → V) (s1 s2 : ℕ) :
    PresP n0 (alloc2 d f s1 s2) fun a => n0 ≤ a :=
  presP_mbind (presP_readD n0 d s1) fun v1 _ =>
    presP_mbind (presP_readD n0 d s2) fun v2 _ => presP_allocM n0 (f v1 v2)

theorem presP_alloc1T {V : Type} (n0 : ℕ) (d : V) (f : V → V) (src : ℕ) :
    PresP n0 (alloc1 d f src) fun _ => True :=
  presP_weaken (presP_alloc1 n0 d f src) fun _ _ => trivial

theorem presP_writeSlice {V : Type} {n0 tgt : ℕ} (htgt : n0 ≤ tgt) (d : V)
    (f : ℤ → V → V → V) (z : ℤ) (src : ℕ) :
    PresP n0 (writeSlice d f z tgt src) fun _ => True :=
  presP_mbind (presP_readD n0 d tgt) fun old _ =>
    presP_mbind (presP_readD n0 d src) fun x _ => presP_writeM htgt (f z old x)

theorem presP_writeSelf {V : Type} {n0 tgt : ℕ} (htgt : n0 ≤ tgt) (d : V)
    (f : V → V) :
    PresP n0 (writeSelf d f tgt) fun _ => True :=
  presP_mbind (presP_readD n0 d tgt) fun old _ => presP_writeM htgt (f old)

theorem presP_resampleAllA {V : Type} (n0 : ℕ) (ops : Ops V) (w : CAddrs) :
    PresP n0 (resampleAllA ops w) fun _ => True :=
  presP_mbind (presP_alloc1T n0 _ _ _) fun a _ =>
    presP_mbind (presP_alloc1T n0 _ _ _) fun b _ =>
      presP_mbind (presP_alloc1T n0 _ _ _) fun c _ =>
        presP_mbind (presP_alloc1T n0 _ _ _) fun d _ =>
          presP_mbind (presP_alloc1T n0 _ _ _) fun e _ =>
            presP_mpure trivial

theorem presP_refineAllocLoop {V : Type} (n0 : ℕ) (ops : Ops V) :
    ∀ (fuel : ℕ) (w : CAddrs),
      PresP n0 (refineAllocLoop ops fuel w) fun _ => True := by
  intro fuel
  induction fuel with
  | zero => intro w; exact presP_mpure trivial
  | succ n ih =>
      intro w
      show PresP n0 (if ops.guard n then
        mbind (resampleAllA ops w) (refineAllocLoop ops n) else mpure w) _
      by_cases hg : ops.guard n
      · rw [if_pos hg]
        exact presP_mbind (presP_resampleAllA n0 ops w) fun w2 _ => ih w2
      · rw [if_neg hg]
        exact presP_mpure trivial

theorem presP_bandLoop {V : Type} {n0 : ℕ} (ops : Ops V) (myo : ℕ)
    {segAddrs : List ℕ} (hsegs : ∀ a ∈ segAddrs, n0 ≤ a) (zs : List ℤ) :
    PresP n0 (bandLoop ops myo segAddrs zs) fun _ => True := by
  refine presP_mfor fun z _ => ?_
  refine presP_mbind (presP_alloc1T n0 _ _ _) fun sl _ => ?_
  refine presP_mfor fun sa hsa => ?_
  refine presP_mbind (presP_alloc1T n0 _ _ _) fun ex _ => ?_
  exact presP_writeSlice (hsegs sa hsa) _ _ _ _

theorem presP_reproject {V : Type} (n0 : ℕ) (ops : Ops V) (heartOrig sa : ℕ) :
    PresP n0 (reproject ops heartOrig sa) fun a => n0 ≤ a := by
  refine presP_mbind (presP_alloc1 n0 _ _ _) fun r1 hr1 => ?_
  refine presP_mbind (Q := fun a => n0 ≤ a) ?_ fun r2 hr2 => ?_
  · by_cases hh : ops.holeFill
    · rw [if_pos hh]
      exact presP_alloc1 n0 _ _ _
    · rw [if_neg hh]
      exact presP_mpure hr1
  · exact presP_mbind (presP_alloc1T n0 _ _ _) fun z0 _ => presP_alloc2 n0 _ _ _ _

theorem presP_alloc2T {V : Type} (n0 : ℕ) (d : V) (f : V → V → V) (s1 s2 : ℕ) :
    PresP n0 (alloc2 d f s1 s2) fun _ => True :=
  presP_weaken (presP_alloc2 n0 d f s1 s2) fun _ _ => trivial

theorem presP_pipe {V : Type} (n0 : ℕ) (ops : Ops V) (cin : CAddrs) :
    PresP n0 (pipe ops cin) fun out => ∀ q ∈ out, n0 ≤ q.2 := by
  unfold pipe
  refine presP_mbind (presP_alloc1T n0 _ _ _) fun _ _ => ?_
  refine presP_mbind (presP_alloc1T n0 _ _ _) fun _ _ => ?_
  refine presP_mbind (presP_alloc1T n0 _ _ _) fun _ _ => ?_
  refine presP_mbind (presP_alloc1T n0 _ _ _) fun _ _ => ?_
  refine presP_mbind (presP_alloc1T n0 _ _ _) fun _ _ => ?_
  refine presP_mbind (presP_alloc1T n0 _ _ _) fun wLv _ => ?_
  refine presP_mbind (presP_alloc1T n0 _ _ _) fun wLa _ => ?_
  refine presP_mbind (presP_alloc1T n0 _ _ _) fun wRv _ => ?_
  refine presP_mbind (presP_alloc1T n0 _ _ _) fun wMv _ => ?_
  refine presP_mbind (presP_alloc1T n0 _ _ _) fun wHeart _ => ?_
  refine presP_mbind (presP_alloc2T n0 _ _ _ _) fun sum _ => ?_
  refine presP_mbind (presP_alloc1T n0 _ _ _) fun _ _ => ?_
  refine presP_mbind (presP_resampleAllA n0 ops _) fun w1 _ => ?_
  refine presP_mbind (presP_refineAllocLoop n0 ops ops.maxIter w1) fun w2 _ => ?_
  refine presP_mbind (presP_alloc1T n0 _ _ _) fun inner _ => ?_
  refine presP_mbind (presP_alloc2T n0 _ _ _ _) fun myoRaw _ => ?_
  refine presP_mbind (presP_alloc1T n0 _ _ _) fun dil _ => ?_
  refine presP_mbind (presP_alloc2T n0 _ _ _ _) fun myo _ => ?_
  refine presP_mbind (presP_alloc1 n0 _ _ _) fun apex hapex => ?_
  refine presP_mbind (presP_writeSelf hapex _ _) fun _ _ => ?_
  refine presP_mbind (presP_alloc1 n0 _ _ _) fun apicalC hapC => ?_
  refine presP_mbind (presP_writeSelf hapC _ _) fun _ _ => ?_
  refine presP_mbind (presP_writeSelf hapC _ _) fun _ _ => ?_
  refine presP_mbind (presP_alloc1 n0 _ _ _) fun midC hmidC => ?_
  refine presP_mbind (presP_writeSelf hmidC _ _) fun _ _ => ?_
  refine presP_mbind (presP_writeSelf hmidC _ _) fun _ _ => ?_
  refine presP_mbind (presP_alloc1 n0 _ _ _) fun basalC hbasC => ?_
  refine presP_mbind (presP_writeSelf hbasC _ _) fun _ _ => ?_
  refine presP_mbind (presP_writeSelf hbasC _ _) fun _ _ => ?_
  refine presP_mbind (presP_mmap fun _ _ => presP_alloc1 n0 _ _ _) fun segs hsegs => ?_
  have hseg16 : ∀ a ∈ segs.take 16, n0 ≤ a := fun a ha =>
    hsegs a (List.mem_of_mem_take ha)
  refine presP_mbind (presP_bandLoop ops myo
    (fun a ha => hseg16 a (List.mem_of_mem_drop ha)) ops.zsApical) fun _ _ => ?_
  refine presP_mbind (presP_bandLoop ops myo
    (fun a ha => hseg16 a (List.mem_of_mem_drop (List.mem_of_mem_take ha)))
    ops.zsMid) fun _ _ => ?_
  refine presP_mbind (presP_bandLoop ops myo
    (fun a ha => hseg16 a (List.mem_of_mem_take ha)) ops.zsBasal) fun _ _ => ?_
  refine presP_mbind (presP_mmap fun sa _ => presP_reproject n0 ops cin.heart sa)
    fun out hout => ?_
  refine presP_mpure ?_
  intro q hq
  obtain ⟨i, b⟩ := q
  exact hout b (List.of_mem_zip hq).2

/-- C9: the pipeline never mutates the heap below the initial allocation
pointer: every input volume's stored object (content and metadata) is
unchanged after the run, and every returned segment volume is a newly
allocated object. -/
theorem c9_inputs_never_mutated {V : Type} (ops : Ops V) (cin : CAddrs)
    (h0 : Heap V) (hlv : cin.lv < h0.next) (hla : cin.la < h0.next)
    (hrv : cin.rv < h0.next) (hmv : cin.mv < h0.next)
    (hheart : cin.heart < h0.next) :
    ((pipe ops cin h0).2.mem cin.lv = h0.mem cin.lv ∧
     (pipe ops cin h0).2.mem cin.la = h0.mem cin.la ∧
     (pipe ops cin h0).2.mem cin.rv = h0.mem cin.rv ∧
     (pipe ops cin h0).2.mem cin.mv = h0.mem cin.mv ∧
     (pipe ops cin h0).2.mem cin.heart = h0.mem cin.heart) ∧
    (∀ a, a < h0.next → (pipe ops cin h0).2.mem a = h0.mem a) ∧
    (∀ q ∈ (pipe ops cin h0).1, h0.next ≤ q.2) := by
  obtain ⟨h1, h2, h3⟩ := presP_pipe h0.next ops cin h0 le_rfl
  exact ⟨⟨h2 _ hlv, h2 _ hla, h2 _ hrv, h2 _ hmv, h2 _ hheart⟩, h2, h3⟩

/-- C9 (witness): the no-mutation statement evaluated on a concrete run. -/
theorem c9_witness :
    ((pipe opsU cinW heap0).2.mem cinW.lv = heap0.mem cinW.lv ∧
     (pipe opsU cinW heap0).2.mem cinW.la = heap0.mem cinW.la ∧
     (pipe opsU cinW heap0).2.mem cinW.rv = heap0.mem cinW.rv ∧
     (pipe opsU cinW heap0).2.mem cinW.mv = heap0.mem cinW.mv ∧
     (pipe opsU cinW heap0).2.mem cinW.heart = heap0.mem cinW.heart) ∧
    (∀ a, a < heap0.next → (pipe opsU cinW heap0).2.mem a = heap0.mem a) ∧
    (∀ q ∈ (pipe opsU cinW heap0).1, heap0.next ≤ q.2) :=
  c9_inputs_never_mutated opsU cinW heap0 (by decide) (by decide) (by decide)
    (by decide) (by decide)

end Alloc
